import Mathlib

/-!
# Verification of `simple-registry-api`

A shallow embedding of the repository's Python code
(`simple_registry_api/Registry.py` and `simple_registry_api/_BaseClient.py`)
as pure Lean functions over an explicit state (`World`), together with
theorems settling the specification claims.

Modelling conventions:
* JSON documents are `JVal`; a Python `dict` is an association list.
* Mutable object state is threaded explicitly: each method of an entity
  takes the entity's state and the shared `World` and returns the result
  together with the updated states.
* Exceptions are `Except PyErr`.
* The HTTP transport is an oracle `net : Request → HttpResponse` supplied
  in the environment `Env`; issuing a request appends an `Event` to the
  world's trace, which lets theorems count network calls.
* CPython object identity (needed for `dict.values()` views, which define
  no `__eq__` and therefore compare by identity) is modelled by an
  allocation counter `World.nextId`.
-/

/-- A JSON value, as produced by `response.json()`.  Arrays and objects are
encoded first-order: `arrCons h t` is the array with head `h` and tail
array `t`; `objCons k v r` is the object whose first field is `k ↦ v` and
whose remaining fields are `r`.  Keys of an object are distinct, as in a
Python dict. -/
inductive JVal where
  | str (s : String)
  | num (n : Int)
  | arrNil
  | arrCons (head tail : JVal)
  | objNil
  | objCons (key : String) (val rest : JVal)
deriving DecidableEq, Repr

/-- The JSON array of the given strings. -/
def JVal.strs : List String → JVal
  | [] => .arrNil
  | s :: rest => .arrCons (.str s) (JVal.strs rest)

/-- Python exceptions that the embedded code can raise. -/
inductive PyErr where
  | httpError (status : Nat) (reason : String)
  | keyError (key : String)
  | typeError (msg : String)
  | valueError (msg : String)
deriving DecidableEq, Repr

/-- HTTP method (`session.get` / `session.put` / `session.delete`). -/
inductive Method where
  | get
  | put
  | delete
deriving DecidableEq, Repr

/-- The request the client hands to the transport: method, formatted path,
`Accept` header (absent in `CommonBaseClient._http_response`) and
`Authorization` header. -/
structure Request where
  method : Method
  path : String
  accept : Option String
  authorization : Option String
deriving DecidableEq, Repr

/-- The transport's answer: status line, body (`none` = empty content) and
the two response headers the code reads. -/
structure HttpResponse where
  statusCode : Nat
  reason : String
  body : Option JVal
  contentType : Option String
  dockerContentDigest : Option String
deriving DecidableEq, Repr

/-- Observable events: a token renewal (`AuthorizationService.get_new_token`),
an HTTP request handed to the transport, or `session.close()`. -/
inductive Event where
  | getNewToken (desiredScope : Option String)
  | httpRequest (req : Request)
  | sessionClose
deriving DecidableEq, Repr

/-- State of the `AuthorizationService` held by the client: whether the
registry demands bearer tokens, the current token, the scope it was minted
for, and the scope desired for the next call. -/
structure AuthState where
  tokenRequired : Bool
  token : Option String
  scope : Option String
  desiredScope : Option String
deriving DecidableEq, Repr

/-- The shared mutable world: the client's auth state, whether the
transport session has been closed, the object-identity allocator, and the
trace of observable events. -/
structure World where
  auth : AuthState
  sessionClosed : Bool
  nextId : Nat
  trace : List Event
deriving DecidableEq, Repr

/-- The environment: the HTTP transport oracle and the authorization
endpoint oracle (scope ↦ token). -/
structure Env where
  net : Request → HttpResponse
  authEndpoint : Option String → String

/-- `'{}'.format(x)` for an optional string: Python renders `None` as
`"None"`. -/
def pyStr : Option String → String
  | none => "None"
  | some s => s

/-- Association-list lookup, modelling `d[k]` on a Python dict built by a
comprehension over distinct keys. -/
def lookupA {α : Type} : List (String × α) → String → Option α
  | [], _ => none
  | (k, v) :: rest, key => if k = key then some v else lookupA rest key

/-- `j[k]` on a JSON object: `KeyError` when the key is absent,
`TypeError` when `j` is not an object. -/
def jGet : JVal → String → Except PyErr JVal
  | .objNil, k => .error (.keyError k)
  | .objCons key v rest, k => if key = k then .ok v else jGet rest k
  | _, k => .error (.typeError ("not subscriptable: " ++ k))

/-- `j[k]` where the value is used as a string. -/
def jGetStr (j : JVal) (k : String) : Except PyErr String :=
  match jGet j k with
  | .error e => .error e
  | .ok (.str s) => .ok s
  | .ok _ => .error (.typeError ("not a string: " ++ k))

/-- Iterating a JSON array of strings (`for tag in d['tags']`). -/
def asStrList : JVal → Except PyErr (List String)
  | .arrNil => .ok []
  | .arrCons (.str s) rest =>
      match asStrList rest with
      | .ok tail => .ok (s :: tail)
      | .error e => .error e
  | .arrCons _ _ => .error (.typeError "not a string element")
  | _ => .error (.typeError "not iterable")

theorem asStrList_strs (l : List String) : asStrList (JVal.strs l) = .ok l := by
  induction l with
  | nil => rfl
  | cons s rest ih => simp [JVal.strs, asStrList, ih]

/-! ## The client layer (`_BaseClient.py`, class `BaseClientV2`) -/

/-- `BaseClientV2.schema_2`, the default `Accept` header. -/
def schema_2 : String := "application/vnd.docker.distribution.manifest.v2+json"

/-- `BaseClientV2.schema_blob`, the default blob media type. -/
def schema_blob : String := "application/vnd.docker.container.image.v1+json"

/-- `LIST_TAGS.format(name=name)`. -/
def listTagsPath (name : String) : String := "/v2/" ++ name ++ "/tags/list"

/-- `MANIFEST.format(name=name, reference=reference)`. -/
def manifestPath (name reference : String) : String :=
  "/v2/" ++ name ++ "/manifests/" ++ reference

/-- `BLOB.format(name=name, digest=digest)`. -/
def blobPath (name digest : String) : String := "/v2/" ++ name ++ "/blobs/" ++ digest

/-- `'repository:%s:*' % name`, the scope used by every repository-level call. -/
def repoScope (name : String) : String := "repository:" ++ name ++ ":*"

/-- `if not token: ...` — Python truthiness of the held token
(`None` and the empty string are falsy). -/
def tokenFalsy : Option String → Bool
  | none => true
  | some s => s.isEmpty

/-- Modelled from the spec: `AuthorizationService.get_new_token` (the file
`AuthorizationService.py` is imported by `_BaseClient.py` but absent from
the sources).  Per the spec it "contacts the authorization endpoint with
the registry identity, desired scope, and credentials, and stores the
returned token plus the scope it was minted for". -/
def getNewToken (env : Env) (a : AuthState) : AuthState :=
  { a with token := some (env.authEndpoint a.desiredScope), scope := a.desiredScope }

/-- `self.auth.desired_scope = scope` performed at the top of each client
operation. -/
def setDesiredScope (scope : String) (w : World) : World :=
  { w with auth := { w.auth with desiredScope := some scope } }

/-- `BaseClientV2._http_response`: pick the `Accept` schema, renew the
token if token auth is required and either no (truthy) token is held or
the desired scope differs from the held token's scope, attach the bearer
header, issue the request, and `raise_for_status()`.  Note: unlike
`CommonBaseClient._http_response`, this override does *not* close the
session on failure. -/
def httpResponseV2 (env : Env) (method : Method) (path : String)
    (schema : Option String) (w : World) : Except PyErr HttpResponse × World :=
  let schema := schema.getD schema_2
  let a := w.auth
  let (a, renewEvents) :=
    if a.tokenRequired then
      if tokenFalsy a.token || a.desiredScope != a.scope then
        (getNewToken env a, [Event.getNewToken a.desiredScope])
      else (a, [])
    else (a, [])
  let authHeader :=
    if a.tokenRequired then some ("Bearer " ++ pyStr a.token) else none
  let req : Request :=
    { method := method, path := path, accept := some schema, authorization := authHeader }
  let resp := env.net req
  let w := { w with
    auth := a
    trace := w.trace ++ renewEvents ++ [Event.httpRequest req] }
  if 400 ≤ resp.statusCode then
    (.error (.httpError resp.statusCode resp.reason), w)
  else
    (.ok resp, w)

/-- `CommonBaseClient._http_response`: no `Accept` header, no token logic,
and the `try/except` closes the session on failure before re-raising. -/
def commonHttpResponse (env : Env) (method : Method) (path : String)
    (w : World) : Except PyErr HttpResponse × World :=
  let req : Request := { method := method, path := path, accept := none, authorization := none }
  let resp := env.net req
  let w := { w with trace := w.trace ++ [Event.httpRequest req] }
  if 400 ≤ resp.statusCode then
    (.error (.httpError resp.statusCode resp.reason),
     { w with sessionClosed := true, trace := w.trace ++ [Event.sessionClose] })
  else
    (.ok resp, w)

/-- `CommonBaseClient._http_call` (dispatching to the `BaseClientV2`
override of `_http_response`): empty body yields `{}`, otherwise the JSON
body. -/
def httpCallV2 (env : Env) (method : Method) (path : String)
    (schema : Option String) (w : World) : Except PyErr JVal × World :=
  match httpResponseV2 env method path schema w with
  | (.error e, w) => (.error e, w)
  | (.ok resp, w) =>
      match resp.body with
      | none => (.ok .objNil, w)
      | some j => (.ok j, w)

/-- `response.json()`: raises when the body is empty. -/
def respJson (resp : HttpResponse) : Except PyErr JVal :=
  match resp.body with
  | none => .error (.valueError "no JSON object could be decoded")
  | some j => .ok j

/-- `BaseClientV2.catalog`. -/
def catalog (env : Env) (w : World) : Except PyErr JVal × World :=
  httpCallV2 env .get "/v2/_catalog" none (setDesiredScope "registry:catalog:*" w)

/-- `BaseClientV2.check_status`. -/
def check_status (env : Env) (w : World) : Except PyErr JVal × World :=
  httpCallV2 env .get "/v2/" none (setDesiredScope "registry:catalog:*" w)

/-- `BaseClientV2.get_repository_tags`. -/
def get_repository_tags (env : Env) (name : String) (w : World) :
    Except PyErr JVal × World :=
  httpCallV2 env .get (listTagsPath name) none (setDesiredScope (repoScope name) w)

/-- The `_Manifest` namedtuple returned by `BaseClientV2.get_manifest`. -/
structure ClientManifest where
  content : JVal
  type : String
  digest : Option String
deriving DecidableEq, Repr

/-- `BaseClientV2.get_manifest`: issue the GET, decode the JSON body, and
read the `Content-Type` and `Docker-Content-Digest` response headers. -/
def get_manifest (env : Env) (name reference : String) (w : World) :
    Except PyErr ClientManifest × World :=
  let w := setDesiredScope (repoScope name) w
  match httpResponseV2 env .get (manifestPath name reference) (some schema_2) w with
  | (.error e, w) => (.error e, w)
  | (.ok resp, w) =>
      match respJson resp with
      | .error e => (.error e, w)
      | .ok j =>
          (.ok { content := j
                 type := resp.contentType.getD "application/json"
                 digest := resp.dockerContentDigest }, w)

/-- `BaseClientV2.get_manifest_and_digest`. -/
def get_manifest_and_digest (env : Env) (name reference : String) (w : World) :
    Except PyErr (JVal × Option String) × World :=
  match get_manifest env name reference w with
  | (.error e, w) => (.error e, w)
  | (.ok m, w) => (.ok (m.content, m.digest), w)

/-- `BaseClientV2.delete_manifest`. -/
def delete_manifest (env : Env) (name digest : String) (w : World) :
    Except PyErr JVal × World :=
  httpCallV2 env .delete (manifestPath name digest) none
    (setDesiredScope (repoScope name) w)

/-- `BaseClientV2.get_blob`. -/
def get_blob (env : Env) (name digest schema : String) (w : World) :
    Except PyErr JVal × World :=
  let w := setDesiredScope (repoScope name) w
  match httpResponseV2 env .get (blobPath name digest) (some schema) w with
  | (.error e, w) => (.error e, w)
  | (.ok resp, w) =>
      match respJson resp with
      | .error e => (.error e, w)
      | .ok j => (.ok j, w)

/-- `BaseClientV2.delete_blob`. -/
def delete_blob (env : Env) (name digest : String) (w : World) :
    Except PyErr JVal × World :=
  httpCallV2 env .delete (blobPath name digest) none
    (setDesiredScope (repoScope name) w)

/-- The authenticated client operations quantified over by the claims. -/
inductive ClientOp where
  | catalogOp
  | listTagsOp (name : String)
  | getManifestOp (name reference : String)
  | deleteManifestOp (name digest : String)
  | getBlobOp (name digest schema : String)
  | deleteBlobOp (name digest : String)
deriving DecidableEq, Repr

/-- Run a client operation, discarding its (operation-specific) result. -/
def runOp (env : Env) (op : ClientOp) (w : World) : Except PyErr Unit × World :=
  match op with
  | .catalogOp => ((catalog env w).1.map fun _ => (), (catalog env w).2)
  | .listTagsOp n => ((get_repository_tags env n w).1.map fun _ => (), (get_repository_tags env n w).2)
  | .getManifestOp n ref => ((get_manifest env n ref w).1.map fun _ => (), (get_manifest env n ref w).2)
  | .deleteManifestOp n d => ((delete_manifest env n d w).1.map fun _ => (), (delete_manifest env n d w).2)
  | .getBlobOp n d s => ((get_blob env n d s w).1.map fun _ => (), (get_blob env n d s w).2)
  | .deleteBlobOp n d => ((delete_blob env n d w).1.map fun _ => (), (delete_blob env n d w).2)

/-- The desired scope each operation sets before calling `_http_response`. -/
def opScope : ClientOp → String
  | .catalogOp => "registry:catalog:*"
  | .listTagsOp n => repoScope n
  | .getManifestOp n _ => repoScope n
  | .deleteManifestOp n _ => repoScope n
  | .getBlobOp n _ _ => repoScope n
  | .deleteBlobOp n _ => repoScope n

/-! ## Timestamps (`datetime.strptime(age_str, '%Y-%m-%dT%H:%M:%S')`) -/

/-- A parsed `datetime` (no sub-second part, as the format has none). -/
structure PyDatetime where
  year : Nat
  month : Nat
  day : Nat
  hour : Nat
  minute : Nat
  second : Nat
deriving DecidableEq, Repr

/-- Split a character list into the groups between occurrences of `c`
(`str.split(c)`); always returns at least one group. -/
def splitOnChar (c : Char) : List Char → List (List Char)
  | [] => [[]]
  | x :: xs =>
      match splitOnChar c xs with
      | [] => [[]]
      | g :: gs => if x = c then [] :: g :: gs else (x :: g) :: gs

/-- `blob['created'].split('.')[0]`: everything before the first `'.'`. -/
def pySplitDotHead (s : String) : String :=
  String.mk (s.toList.takeWhile (fun c => c ≠ '.'))

/-- A nonempty all-digit group read as a number. -/
def parseNatDigits (l : List Char) : Option Nat :=
  if l ≠ [] ∧ l.all (·.isDigit) then
    some (l.foldl (fun acc c => acc * 10 + (c.toNat - '0'.toNat)) 0)
  else
    none

/-- `datetime.strptime(s, '%Y-%m-%dT%H:%M:%S')`: date and time separated
by `'T'`, date groups by `'-'`, time groups by `':'`, all numeric, with
the calendar fields range-checked; `ValueError` otherwise. -/
def strptimeYmdHMS (s : String) : Except PyErr PyDatetime :=
  match splitOnChar 'T' s.toList with
  | [ds, ts] =>
      match splitOnChar '-' ds, splitOnChar ':' ts with
      | [ys, ms, dds], [hs, mis, ss] =>
          match parseNatDigits ys, parseNatDigits ms, parseNatDigits dds,
                parseNatDigits hs, parseNatDigits mis, parseNatDigits ss with
          | some y, some mo, some d, some h, some mi, some sec =>
              if 1 ≤ mo ∧ mo ≤ 12 ∧ 1 ≤ d ∧ d ≤ 31 ∧ h ≤ 23 ∧ mi ≤ 59 ∧ sec ≤ 59 then
                .ok { year := y, month := mo, day := d, hour := h, minute := mi, second := sec }
              else
                .error (.valueError ("time data out of range: " ++ s))
          | _, _, _, _, _, _ => .error (.valueError ("time data does not match format: " ++ s))
      | _, _ => .error (.valueError ("time data does not match format: " ++ s))
  | _ => .error (.valueError ("time data does not match format: " ++ s))

/-! ## The entity model (`Registry.py`) -/

/-- The state of a `Manifest` instance: `_repo`, `_digest` (the value of a
`Docker-Content-Digest` header, hence possibly `None`), the `_content`
cache and the `_age` cache. -/
structure Manifest where
  repo : String
  digest : Option String
  content : Option JVal
  age : Option PyDatetime
deriving DecidableEq, Repr

/-- The state of a `Tag` instance: `_repo`, `_tag` and the `_manifest`
cache. -/
structure Tag where
  repo : String
  tag : String
  manifest : Option Manifest
deriving DecidableEq, Repr

/-- The state of a `Repository` instance: `_repo` and the `__tags` cache
(a dict from tag string to `Tag`). -/
structure Repository where
  repo : String
  tags : Option (List (String × Tag))
deriving DecidableEq, Repr

/-- The state of a `Registry` instance: the host and the
`__repositories` cache (a dict from repository name to `Repository`). -/
structure Registry where
  host : String
  repositories : Option (List (String × Repository))
deriving DecidableEq, Repr

/-- The `Manifest.content` property: fetch via
`get_manifest_and_digest(repository, digest)` when the cache is empty
(dropping the returned digest), cache the content, and return it (the
`MappingProxyType` wrapper is a read-only view of the same mapping). -/
def Manifest.contentGet (env : Env) (m : Manifest) (w : World) :
    Except PyErr JVal × Manifest × World :=
  match m.content with
  | some c => (.ok c, m, w)
  | none =>
      match get_manifest_and_digest env m.repo (pyStr m.digest) w with
      | (.error e, w) => (.error e, m, w)
      | (.ok (c, _), w) => (.ok c, { m with content := some c }, w)

/-- The `Manifest.age` property: on a cache miss, read the `config`
descriptor from `content`, fetch the referenced blob, truncate the
`created` timestamp at the first `'.'`, parse it, and cache the result. -/
def Manifest.ageGet (env : Env) (m : Manifest) (w : World) :
    Except PyErr PyDatetime × Manifest × World :=
  match m.age with
  | some a => (.ok a, m, w)
  | none =>
      match Manifest.contentGet env m w with
      | (.error e, m, w) => (.error e, m, w)
      | (.ok c, m, w) =>
          match jGet c "config" with
          | .error e => (.error e, m, w)
          | .ok conf =>
              match jGetStr conf "digest" with
              | .error e => (.error e, m, w)
              | .ok confDigest =>
                  match jGetStr conf "mediaType" with
                  | .error e => (.error e, m, w)
                  | .ok mediaType =>
                      match get_blob env m.repo confDigest mediaType w with
                      | (.error e, w) => (.error e, m, w)
                      | (.ok blob, w) =>
                          match jGetStr blob "created" with
                          | .error e => (.error e, m, w)
                          | .ok created =>
                              match strptimeYmdHMS (pySplitDotHead created) with
                              | .error e => (.error e, m, w)
                              | .ok dt => (.ok dt, { m with age := some dt }, w)

/-- `Manifest.delete`: `delete_manifest(repository, digest)`. -/
def Manifest.deleteM (env : Env) (m : Manifest) (w : World) :
    Except PyErr JVal × World :=
  delete_manifest env m.repo (pyStr m.digest) w

/-- The `Tag.manifest` property: on a cache miss, fetch content and digest
by tag and cache a `Manifest` built from them. -/
def Tag.manifestGet (env : Env) (t : Tag) (w : World) :
    Except PyErr Manifest × Tag × World :=
  match t.manifest with
  | some m => (.ok m, t, w)
  | none =>
      match get_manifest_and_digest env t.repo t.tag w with
      | (.error e, w) => (.error e, t, w)
      | (.ok (content, digest), w) =>
          let m : Manifest := { repo := t.repo, digest := digest, content := some content, age := none }
          (.ok m, { t with manifest := some m }, w)

/-- `Tag.delete`: `self.manifest.delete()` — force the manifest, then
delete it. -/
def Tag.deleteT (env : Env) (t : Tag) (w : World) :
    Except PyErr JVal × Tag × World :=
  match Tag.manifestGet env t w with
  | (.error e, t, w) => (.error e, t, w)
  | (.ok m, t, w) =>
      match Manifest.deleteM env m w with
      | (r, w) => (r, t, w)

/-- `Manifest.__eq__`: `digest`, then `repository`, then `content` — the
`and` chain short-circuits, and comparing `content` forces the lazy fetch
on both sides. -/
def Manifest.pyEq (env : Env) (m1 m2 : Manifest) (w : World) :
    Except PyErr Bool × Manifest × Manifest × World :=
  if m1.digest = m2.digest then
    if m1.repo = m2.repo then
      match Manifest.contentGet env m1 w with
      | (.error e, m1, w) => (.error e, m1, m2, w)
      | (.ok c1, m1, w) =>
          match Manifest.contentGet env m2 w with
          | (.error e, m2, w) => (.error e, m1, m2, w)
          | (.ok c2, m2, w) => (.ok (c1 = c2), m1, m2, w)
    else (.ok false, m1, m2, w)
  else (.ok false, m1, m2, w)

/-- The value of `Manifest.__eq__` between two manifests whose `_content`
caches are populated: no fetch happens, so the comparison is pure.  (Every
manifest built by `Tag.manifest` has its content populated, which is why
`Repository.manifests` can deduplicate with this pure comparison.) -/
def manifestBeqPopulated (a b : Manifest) : Bool :=
  a.digest = b.digest && a.repo = b.repo && a.content = b.content

/-- Python `set.add` semantics for `Manifest`: `__hash__` is
`hash(repr(self))`, and `repr` agrees exactly when `repo` and `digest`
agree, so two manifests land in the same bucket and are deduplicated iff
`__eq__` holds; `__eq__` true implies equal `repr`, hence equal hash.
Membership in the built set therefore reduces to `__eq__`. -/
def setAddManifest (s : List Manifest) (m : Manifest) : List Manifest :=
  if s.any (fun x => manifestBeqPopulated x m) then s else s ++ [m]

/-- A `dict_values` view as returned by the `tags` property: a fresh view
object (identified by `viewId`) over the dict's entries. -/
structure TagsView where
  viewId : Nat
  entries : List (String × Tag)
deriving DecidableEq, Repr

/-- Python `==` between two `dict_values` views: `dict_values` defines no
`__eq__`, so comparison falls back to object identity. -/
def dictValuesEq (v1 v2 : TagsView) : Bool :=
  v1.viewId = v2.viewId

/-- The `Repository._tags` property: on a cache miss, call
`get_repository_tags(repo)`, read its `'tags'` list, and cache a dict
mapping each tag string to a fresh `Tag`. -/
def Repository.tagsResolve (env : Env) (r : Repository) (w : World) :
    Except PyErr (List (String × Tag)) × Repository × World :=
  match r.tags with
  | some d => (.ok d, r, w)
  | none =>
      match get_repository_tags env r.repo w with
      | (.error e, w) => (.error e, r, w)
      | (.ok j, w) =>
          match jGet j "tags" with
          | .error e => (.error e, r, w)
          | .ok tagsJ =>
              match asStrList tagsJ with
              | .error e => (.error e, r, w)
              | .ok names =>
                  let d := names.map fun tg =>
                    (tg, ({ repo := r.repo, tag := tg, manifest := none } : Tag))
                  (.ok d, { r with tags := some d }, w)

/-- The `Repository.tags` property: `self._tags.values()` — resolve the
dict, then wrap it in a *fresh* `dict_values` view object. -/
def Repository.tagsView (env : Env) (r : Repository) (w : World) :
    Except PyErr TagsView × Repository × World :=
  match Repository.tagsResolve env r w with
  | (.error e, r, w) => (.error e, r, w)
  | (.ok d, r, w) =>
      (.ok { viewId := w.nextId, entries := d }, r, { w with nextId := w.nextId + 1 })

/-- `Repository.__getitem__`: `self._tags[tag]`, raising `KeyError` when
absent. -/
def Repository.getItem (env : Env) (tg : String) (r : Repository) (w : World) :
    Except PyErr Tag × Repository × World :=
  match Repository.tagsResolve env r w with
  | (.error e, r, w) => (.error e, r, w)
  | (.ok d, r, w) =>
      match lookupA d tg with
      | some t => (.ok t, r, w)
      | none => (.error (.keyError tg), r, w)

/-- `Repository.get`: `self[tag]`, with `KeyError` (and only `KeyError`)
caught and turned into the caller-supplied default. -/
def Repository.get (env : Env) (tg : String) (dflt : Option Tag)
    (r : Repository) (w : World) : Except PyErr (Option Tag) × Repository × World :=
  match Repository.getItem env tg r w with
  | (.ok t, r, w) => (.ok (some t), r, w)
  | (.error (.keyError _), r, w) => (.ok dflt, r, w)
  | (.error e, r, w) => (.error e, r, w)

/-- The body of the set comprehension `{tag.manifest for tag in self.tags}`:
walk the dict entries, force each tag's manifest (writing the updated tag
back into the dict) and add it to the set. -/
def manifestSetFold (env : Env) (acc : List Manifest) :
    List (String × Tag) → World →
      Except PyErr (List Manifest) × List (String × Tag) × World
  | [], w => (.ok acc, [], w)
  | (n, t) :: rest, w =>
      match Tag.manifestGet env t w with
      | (.error e, t, w) => (.error e, (n, t) :: rest, w)
      | (.ok m, t, w) =>
          match manifestSetFold env (setAddManifest acc m) rest w with
          | (res, rest, w) => (res, (n, t) :: rest, w)

/-- The `Repository.manifests` property:
`{tag.manifest for tag in self.tags}`. -/
def Repository.manifests (env : Env) (r : Repository) (w : World) :
    Except PyErr (List Manifest) × Repository × World :=
  match Repository.tagsView env r w with
  | (.error e, r, w) => (.error e, r, w)
  | (.ok v, r, w) =>
      match manifestSetFold env [] v.entries w with
      | (res, entries, w) => (res, { r with tags := some entries }, w)

/-- `manifest.delete()` for each manifest of the set, aborting on the
first failure. -/
def deleteManifests (env : Env) : List Manifest → World → Except PyErr Unit × World
  | [], w => (.ok (), w)
  | m :: rest, w =>
      match Manifest.deleteM env m w with
      | (.error e, w) => (.error e, w)
      | (.ok _, w) => deleteManifests env rest w

/-- `Repository.delete`: `for manifest in self.manifests: manifest.delete()`. -/
def Repository.deleteR (env : Env) (r : Repository) (w : World) :
    Except PyErr Unit × Repository × World :=
  match Repository.manifests env r w with
  | (.error e, r, w) => (.error e, r, w)
  | (.ok s, r, w) =>
      match deleteManifests env s w with
      | (res, w) => (res, r, w)

/-- `Repository.__eq__`: `self._repo == other._repo and self.tags == other.tags`
— the second comparison is between two freshly created `dict_values`
views, and only runs (forcing tag resolution on both sides) when the
names agree. -/
def Repository.pyEq (env : Env) (r1 r2 : Repository) (w : World) :
    Except PyErr Bool × Repository × Repository × World :=
  if r1.repo = r2.repo then
    match Repository.tagsView env r1 w with
    | (.error e, r1, w) => (.error e, r1, r2, w)
    | (.ok v1, r1, w) =>
        match Repository.tagsView env r2 w with
        | (.error e, r2, w) => (.error e, r1, r2, w)
        | (.ok v2, r2, w) => (.ok (dictValuesEq v1 v2), r1, r2, w)
  else (.ok false, r1, r2, w)

/-- The `Registry._repositories` property: on a cache miss, call
`catalog()`, read its `'repositories'` list, and cache a dict mapping
each name to a fresh `Repository`. -/
def Registry.reposResolve (env : Env) (rg : Registry) (w : World) :
    Except PyErr (List (String × Repository)) × Registry × World :=
  match rg.repositories with
  | some d => (.ok d, rg, w)
  | none =>
      match catalog env w with
      | (.error e, w) => (.error e, rg, w)
      | (.ok j, w) =>
          match jGet j "repositories" with
          | .error e => (.error e, rg, w)
          | .ok reposJ =>
              match asStrList reposJ with
              | .error e => (.error e, rg, w)
              | .ok names =>
                  let d := names.map fun n =>
                    (n, ({ repo := n, tags := none } : Repository))
                  (.ok d, { rg with repositories := some d }, w)

/-- `Registry.__getitem__`: `self._repositories[repository]`. -/
def Registry.getItem (env : Env) (name : String) (rg : Registry) (w : World) :
    Except PyErr Repository × Registry × World :=
  match Registry.reposResolve env rg w with
  | (.error e, rg, w) => (.error e, rg, w)
  | (.ok d, rg, w) =>
      match lookupA d name with
      | some r => (.ok r, rg, w)
      | none => (.error (.keyError name), rg, w)

/-- `Registry.get`: `self[repository]`, with `KeyError` (and only
`KeyError`) caught and turned into the caller-supplied default. -/
def Registry.get (env : Env) (name : String) (dflt : Option Repository)
    (rg : Registry) (w : World) :
    Except PyErr (Option Repository) × Registry × World :=
  match Registry.getItem env name rg w with
  | (.ok r, rg, w) => (.ok (some r), rg, w)
  | (.error (.keyError _), rg, w) => (.ok dflt, rg, w)
  | (.error e, rg, w) => (.error e, rg, w)

/-! ## Frame lemmas about the client layer -/

/-- The HTTP method each client operation uses. -/
def opMethod : ClientOp → Method
  | .catalogOp => .get
  | .listTagsOp _ => .get
  | .getManifestOp _ _ => .get
  | .deleteManifestOp _ _ => .delete
  | .getBlobOp _ _ _ => .get
  | .deleteBlobOp _ _ => .delete

/-- The formatted path each client operation requests. -/
def opPath : ClientOp → String
  | .catalogOp => "/v2/_catalog"
  | .listTagsOp n => listTagsPath n
  | .getManifestOp n ref => manifestPath n ref
  | .deleteManifestOp n d => manifestPath n d
  | .getBlobOp n d _ => blobPath n d
  | .deleteBlobOp n d => blobPath n d

/-- The `Accept` schema each client operation passes to `_http_response`. -/
def opSchema : ClientOp → Option String
  | .getManifestOp _ _ => some schema_2
  | .getBlobOp _ _ s => some s
  | _ => none

theorem httpCallV2_snd (env : Env) (m : Method) (p : String) (sch : Option String)
    (w : World) : (httpCallV2 env m p sch w).2 = (httpResponseV2 env m p sch w).2 := by
  rcases h : httpResponseV2 env m p sch w with ⟨res, w'⟩
  unfold httpCallV2
  rw [h]
  cases res with
  | error e => rfl
  | ok resp => rcases hb : resp.body with _ | j <;> simp [hb]

theorem get_manifest_snd (env : Env) (n ref : String) (w : World) :
    (get_manifest env n ref w).2 =
      (httpResponseV2 env .get (manifestPath n ref) (some schema_2)
        (setDesiredScope (repoScope n) w)).2 := by
  rcases h : httpResponseV2 env .get (manifestPath n ref) (some schema_2)
      (setDesiredScope (repoScope n) w) with ⟨res, w'⟩
  simp only [get_manifest]
  rw [h]
  cases res with
  | error e => rfl
  | ok resp => rcases hj : respJson resp with e | j <;> simp [hj]

theorem get_blob_snd (env : Env) (n d s : String) (w : World) :
    (get_blob env n d s w).2 =
      (httpResponseV2 env .get (blobPath n d) (some s)
        (setDesiredScope (repoScope n) w)).2 := by
  rcases h : httpResponseV2 env .get (blobPath n d) (some s)
      (setDesiredScope (repoScope n) w) with ⟨res, w'⟩
  simp only [get_blob]
  rw [h]
  cases res with
  | error e => rfl
  | ok resp => rcases hj : respJson resp with e | j <;> simp [hj]

/-- Every client operation's final world is that of a single
`BaseClientV2._http_response` call made after setting the operation's
desired scope. -/
theorem runOp_snd (env : Env) (op : ClientOp) (w : World) :
    (runOp env op w).2 =
      (httpResponseV2 env (opMethod op) (opPath op) (opSchema op)
        (setDesiredScope (opScope op) w)).2 := by
  cases op with
  | catalogOp => exact httpCallV2_snd env _ _ _ _
  | listTagsOp n => exact httpCallV2_snd env _ _ _ _
  | getManifestOp n ref => exact get_manifest_snd env n ref w
  | deleteManifestOp n d => exact httpCallV2_snd env _ _ _ _
  | getBlobOp n d s => exact get_blob_snd env n d s w
  | deleteBlobOp n d => exact httpCallV2_snd env _ _ _ _

/-- Whether `BaseClientV2._http_response` will renew the token in the
given world. -/
def renewNeeded (w : World) : Bool :=
  w.auth.tokenRequired && (tokenFalsy w.auth.token || w.auth.desiredScope != w.auth.scope)

/-- The auth state after the (possible) renewal inside `_http_response`. -/
def authAfter (env : Env) (w : World) : AuthState :=
  if renewNeeded w then getNewToken env w.auth else w.auth

/-- The request `_http_response` hands to the transport. -/
def reqOf (env : Env) (m : Method) (p : String) (sch : Option String) (w : World) :
    Request :=
  { method := m, path := p, accept := some (sch.getD schema_2),
    authorization :=
      if w.auth.tokenRequired then some ("Bearer " ++ pyStr (authAfter env w).token)
      else none }

/-- The renewal events `_http_response` emits. -/
def renewEventsOf (w : World) : List Event :=
  if renewNeeded w then [Event.getNewToken w.auth.desiredScope] else []

/-- The world after `_http_response`. -/
def worldAfter (env : Env) (m : Method) (p : String) (sch : Option String)
    (w : World) : World :=
  { w with
    auth := authAfter env w
    trace := w.trace ++ renewEventsOf w ++ [Event.httpRequest (reqOf env m p sch w)] }

/-- The result of `_http_response`: the response, or the
`raise_for_status()` error. -/
def respResult (env : Env) (m : Method) (p : String) (sch : Option String)
    (w : World) : Except PyErr HttpResponse :=
  let resp := env.net (reqOf env m p sch w)
  if 400 ≤ resp.statusCode then .error (.httpError resp.statusCode resp.reason)
  else .ok resp

/-- Characterization of `BaseClientV2._http_response`. -/
theorem httpResponseV2_eq (env : Env) (m : Method) (p : String)
    (sch : Option String) (w : World) :
    httpResponseV2 env m p sch w =
      (respResult env m p sch w, worldAfter env m p sch w) := by
  unfold httpResponseV2 respResult worldAfter reqOf authAfter renewEventsOf renewNeeded
  by_cases ht : w.auth.tokenRequired = true <;>
    by_cases hc : (tokenFalsy w.auth.token || w.auth.desiredScope != w.auth.scope) = true <;>
      simp [ht, hc, getNewToken] <;> split <;> rfl

theorem httpResponseV2_snd (env : Env) (m : Method) (p : String)
    (sch : Option String) (w : World) :
    (httpResponseV2 env m p sch w).2 = worldAfter env m p sch w := by
  rw [httpResponseV2_eq]

theorem worldAfter_nextId (env : Env) (m : Method) (p : String)
    (sch : Option String) (w : World) :
    (worldAfter env m p sch w).nextId = w.nextId := rfl

theorem worldAfter_sessionClosed (env : Env) (m : Method) (p : String)
    (sch : Option String) (w : World) :
    (worldAfter env m p sch w).sessionClosed = w.sessionClosed := rfl

/-! ## World lemmas for the client calls -/

theorem listTags_world (env : Env) (n : String) (w : World) :
    (get_repository_tags env n w).2 =
      worldAfter env .get (listTagsPath n) none (setDesiredScope (repoScope n) w) := by
  calc (get_repository_tags env n w).2
      = (httpResponseV2 env .get (listTagsPath n) none
          (setDesiredScope (repoScope n) w)).2 := httpCallV2_snd env _ _ _ _
    _ = _ := httpResponseV2_snd env _ _ _ _

theorem catalog_world (env : Env) (w : World) :
    (catalog env w).2 =
      worldAfter env .get "/v2/_catalog" none
        (setDesiredScope "registry:catalog:*" w) := by
  calc (catalog env w).2
      = (httpResponseV2 env .get "/v2/_catalog" none
          (setDesiredScope "registry:catalog:*" w)).2 := httpCallV2_snd env _ _ _ _
    _ = _ := httpResponseV2_snd env _ _ _ _

theorem delete_manifest_world (env : Env) (n d : String) (w : World) :
    (delete_manifest env n d w).2 =
      worldAfter env .delete (manifestPath n d) none
        (setDesiredScope (repoScope n) w) := by
  calc (delete_manifest env n d w).2
      = (httpResponseV2 env .delete (manifestPath n d) none
          (setDesiredScope (repoScope n) w)).2 := httpCallV2_snd env _ _ _ _
    _ = _ := httpResponseV2_snd env _ _ _ _

theorem get_manifest_world (env : Env) (n ref : String) (w : World) :
    (get_manifest env n ref w).2 =
      worldAfter env .get (manifestPath n ref) (some schema_2)
        (setDesiredScope (repoScope n) w) := by
  rw [get_manifest_snd, httpResponseV2_snd]

theorem get_blob_world (env : Env) (n d s : String) (w : World) :
    (get_blob env n d s w).2 =
      worldAfter env .get (blobPath n d) (some s)
        (setDesiredScope (repoScope n) w) := by
  rw [get_blob_snd, httpResponseV2_snd]

theorem gmad_snd (env : Env) (n ref : String) (w : World) :
    (get_manifest_and_digest env n ref w).2 = (get_manifest env n ref w).2 := by
  rcases h : get_manifest env n ref w with ⟨res, w'⟩
  unfold get_manifest_and_digest
  rw [h]
  cases res <;> rfl

theorem gmad_world (env : Env) (n ref : String) (w : World) :
    (get_manifest_and_digest env n ref w).2 =
      worldAfter env .get (manifestPath n ref) (some schema_2)
        (setDesiredScope (repoScope n) w) := by
  rw [gmad_snd, get_manifest_world]

/-! ## Frame lemmas about the entity accessors -/

theorem tagsResolve_cached (env : Env) (r : Repository) (w : World)
    (d : List (String × Tag)) (h : r.tags = some d) :
    Repository.tagsResolve env r w = (.ok d, r, w) := by
  unfold Repository.tagsResolve
  rw [h]

theorem tagsResolve_err (env : Env) (r : Repository) (w : World)
    (e : PyErr) (r' : Repository) (w' : World)
    (h : Repository.tagsResolve env r w = (.error e, r', w')) : r' = r := by
  rcases hc : r.tags with _ | d0
  · rcases hg : get_repository_tags env r.repo w with ⟨gres, w1⟩
    unfold Repository.tagsResolve at h
    rw [hc, hg] at h
    cases gres with
    | error e1 => simp_all
    | ok j =>
        rcases hj : jGet j "tags" with e1 | tagsJ <;> simp only [hj] at h
        · simp_all
        · rcases hs : asStrList tagsJ with e1 | names <;> simp only [hs] at h <;> simp_all
  · unfold Repository.tagsResolve at h
    rw [hc] at h
    simp_all

theorem tagsResolve_ok_cache (env : Env) (r : Repository) (w : World)
    (d : List (String × Tag)) (r' : Repository) (w' : World)
    (h : Repository.tagsResolve env r w = (.ok d, r', w')) : r'.tags = some d := by
  rcases hc : r.tags with _ | d0
  · rcases hg : get_repository_tags env r.repo w with ⟨gres, w1⟩
    unfold Repository.tagsResolve at h
    rw [hc, hg] at h
    cases gres with
    | error e1 => simp_all
    | ok j =>
        rcases hj : jGet j "tags" with e1 | tagsJ <;> simp only [hj] at h
        · simp_all
        · rcases hs : asStrList tagsJ with e1 | names <;>
            simp only [hs, Prod.mk.injEq, Except.ok.injEq] at h
          · simp_all
          · obtain ⟨h1, h2, h3⟩ := h
            rw [← h2, ← h1]
  · unfold Repository.tagsResolve at h
    rw [hc] at h
    simp only [Prod.mk.injEq, Except.ok.injEq] at h
    obtain ⟨h1, h2, h3⟩ := h
    rw [← h2, hc, h1]

theorem tagsResolve_world (env : Env) (r : Repository) (w : World) :
    (Repository.tagsResolve env r w).2.2 = w ∨
      (Repository.tagsResolve env r w).2.2 = (get_repository_tags env r.repo w).2 := by
  rcases hc : r.tags with _ | d0
  · rcases hg : get_repository_tags env r.repo w with ⟨gres, w1⟩
    unfold Repository.tagsResolve
    rw [hc, hg]
    cases gres with
    | error e1 => right; rfl
    | ok j =>
        rcases hj : jGet j "tags" with e1 | tagsJ <;> simp only [hj]
        · simp
        · rcases hs : asStrList tagsJ with e1 | names <;> simp only [hs]
          · simp
          · simp
  · unfold Repository.tagsResolve
    rw [hc]
    left; rfl

theorem reposResolve_cached (env : Env) (rg : Registry) (w : World)
    (d : List (String × Repository)) (h : rg.repositories = some d) :
    Registry.reposResolve env rg w = (.ok d, rg, w) := by
  unfold Registry.reposResolve
  rw [h]

theorem reposResolve_err (env : Env) (rg : Registry) (w : World)
    (e : PyErr) (rg' : Registry) (w' : World)
    (h : Registry.reposResolve env rg w = (.error e, rg', w')) : rg' = rg := by
  rcases hc : rg.repositories with _ | d0
  · rcases hg : catalog env w with ⟨gres, w1⟩
    unfold Registry.reposResolve at h
    rw [hc, hg] at h
    cases gres with
    | error e1 => simp_all
    | ok j =>
        rcases hj : jGet j "repositories" with e1 | reposJ <;> simp only [hj] at h
        · simp_all
        · rcases hs : asStrList reposJ with e1 | names <;> simp only [hs] at h <;> simp_all
  · unfold Registry.reposResolve at h
    rw [hc] at h
    simp_all

theorem reposResolve_ok_cache (env : Env) (rg : Registry) (w : World)
    (d : List (String × Repository)) (rg' : Registry) (w' : World)
    (h : Registry.reposResolve env rg w = (.ok d, rg', w')) :
    rg'.repositories = some d := by
  rcases hc : rg.repositories with _ | d0
  · rcases hg : catalog env w with ⟨gres, w1⟩
    unfold Registry.reposResolve at h
    rw [hc, hg] at h
    cases gres with
    | error e1 => simp_all
    | ok j =>
        rcases hj : jGet j "repositories" with e1 | reposJ <;> simp only [hj] at h
        · simp_all
        · rcases hs : asStrList reposJ with e1 | names <;>
            simp only [hs, Prod.mk.injEq, Except.ok.injEq] at h
          · simp_all
          · obtain ⟨h1, h2, h3⟩ := h
            rw [← h2, ← h1]
  · unfold Registry.reposResolve at h
    rw [hc] at h
    simp only [Prod.mk.injEq, Except.ok.injEq] at h
    obtain ⟨h1, h2, h3⟩ := h
    rw [← h2, hc, h1]

theorem manifestGet_err (env : Env) (t : Tag) (w : World)
    (e : PyErr) (t' : Tag) (w' : World)
    (h : Tag.manifestGet env t w = (.error e, t', w')) : t' = t := by
  rcases hc : t.manifest with _ | m0
  · rcases hg : get_manifest_and_digest env t.repo t.tag w with ⟨gres, w1⟩
    unfold Tag.manifestGet at h
    rw [hc, hg] at h
    cases gres with
    | error e1 => simp_all
    | ok cd => simp_all
  · unfold Tag.manifestGet at h
    rw [hc] at h
    simp_all

theorem contentGet_err (env : Env) (m : Manifest) (w : World)
    (e : PyErr) (m' : Manifest) (w' : World)
    (h : Manifest.contentGet env m w = (.error e, m', w')) : m' = m := by
  rcases hc : m.content with _ | c0
  · rcases hg : get_manifest_and_digest env m.repo (pyStr m.digest) w with ⟨gres, w1⟩
    unfold Manifest.contentGet at h
    rw [hc, hg] at h
    cases gres with
    | error e1 => simp_all
    | ok cd => simp_all
  · unfold Manifest.contentGet at h
    rw [hc] at h
    simp_all

theorem contentGet_age (env : Env) (m : Manifest) (w : World) :
    (Manifest.contentGet env m w).2.1.age = m.age := by
  unfold Manifest.contentGet
  repeat' split
  all_goals rfl

theorem ageGet_err (env : Env) (m : Manifest) (w : World)
    (e : PyErr) (m' : Manifest) (w' : World)
    (h : Manifest.ageGet env m w = (.error e, m', w')) : m'.age = m.age := by
  rcases hm : m.age with _ | a
  · rcases hc : Manifest.contentGet env m w with ⟨cres, m1, w1⟩
    have hage : m1.age = m.age := by
      have h0 := contentGet_age env m w
      rw [hc] at h0
      exact h0
    unfold Manifest.ageGet at h
    rw [hm, hc] at h
    cases cres with
    | error e1 => simp_all
    | ok c =>
        rcases hconf : jGet c "config" with e1 | conf <;> simp only [hconf] at h
        · simp_all
        · rcases hd : jGetStr conf "digest" with e1 | confDigest <;>
            simp only [hd] at h
          · simp_all
          · rcases hmt : jGetStr conf "mediaType" with e1 | mediaType <;>
              simp only [hmt] at h
            · simp_all
            · rcases hb : get_blob env m1.repo confDigest mediaType w1 with ⟨bres, w2⟩
              rw [hb] at h
              cases bres with
              | error e1 => simp_all
              | ok blob =>
                  rcases hcr : jGetStr blob "created" with e1 | created <;>
                    simp only [hcr] at h
                  · simp_all
                  · rcases hp : strptimeYmdHMS (pySplitDotHead created) with e1 | dt <;>
                      simp only [hp] at h <;> simp_all
  · unfold Manifest.ageGet at h
    rw [hm] at h
    simp at h

/-! ## Claim C5 -/

/-- **C5.** For every lazy accessor (`Registry.repositories`,
`Repository.tags`, `Tag.manifest`, `Manifest.content`, `Manifest.age`):
if the underlying client call raises an error, the entity's cached field
is left unpopulated (unchanged from before the access), so a subsequent
access re-attempts the resolution from scratch. -/
theorem C5_failed_resolution_leaves_cache_unpopulated (env : Env) :
    (∀ rg w e rg' w', Registry.reposResolve env rg w = (.error e, rg', w') →
        rg'.repositories = rg.repositories) ∧
    (∀ r w e r' w', Repository.tagsResolve env r w = (.error e, r', w') →
        r'.tags = r.tags) ∧
    (∀ t w e t' w', Tag.manifestGet env t w = (.error e, t', w') →
        t'.manifest = t.manifest) ∧
    (∀ m w e m' w', Manifest.contentGet env m w = (.error e, m', w') →
        m'.content = m.content) ∧
    (∀ m w e m' w', Manifest.ageGet env m w = (.error e, m', w') →
        m'.age = m.age) := by
  refine ⟨?_, ?_, ?_, ?_, ?_⟩
  · intro rg w e rg' w' h
    rw [reposResolve_err env rg w e rg' w' h]
  · intro r w e r' w' h
    rw [tagsResolve_err env r w e r' w' h]
  · intro t w e t' w' h
    rw [manifestGet_err env t w e t' w' h]
  · intro m w e m' w' h
    rw [contentGet_err env m w e m' w' h]
  · intro m w e m' w' h
    exact ageGet_err env m w e m' w' h

/-- A transport that fails every request with HTTP 500. -/
def env500 : Env :=
  { net := fun _ =>
      { statusCode := 500, reason := "Internal Server Error", body := none,
        contentType := none, dockerContentDigest := none }
    authEndpoint := fun _ => "tok" }

/-- A fresh world against a registry that does not require tokens. -/
def wNoTok : World :=
  { auth := { tokenRequired := false, token := none, scope := none, desiredScope := none }
    sessionClosed := false
    nextId := 0
    trace := [] }

/-- A `Registry` with an unpopulated catalog cache. -/
def rgFresh : Registry := { host := "reg.example", repositories := none }

/-- A `Repository` with an unpopulated tag cache. -/
def repoApp : Repository := { repo := "app", tags := none }

/-- A `Tag` with an unresolved manifest. -/
def tagV1 : Tag := { repo := "app", tag := "v1", manifest := none }

/-- A `Manifest` with unresolved content and age. -/
def manAbc : Manifest :=
  { repo := "app", digest := some "sha256:abc", content := none, age := none }

/-- Witness for C5: against the failing transport, each accessor errors and
leaves its cache field unchanged. -/
theorem C5_witness :
    ((Registry.reposResolve env500 rgFresh wNoTok).2.1).repositories
        = rgFresh.repositories ∧
    ((Repository.tagsResolve env500 repoApp wNoTok).2.1).tags = repoApp.tags ∧
    ((Tag.manifestGet env500 tagV1 wNoTok).2.1).manifest = tagV1.manifest ∧
    ((Manifest.contentGet env500 manAbc wNoTok).2.1).content = manAbc.content ∧
    ((Manifest.ageGet env500 manAbc wNoTok).2.1).age = manAbc.age :=
  ⟨(C5_failed_resolution_leaves_cache_unpopulated env500).1 rgFresh wNoTok
      (.httpError 500 "Internal Server Error")
      ((Registry.reposResolve env500 rgFresh wNoTok).2.1)
      ((Registry.reposResolve env500 rgFresh wNoTok).2.2) rfl,
   (C5_failed_resolution_leaves_cache_unpopulated env500).2.1 repoApp wNoTok
      (.httpError 500 "Internal Server Error")
      ((Repository.tagsResolve env500 repoApp wNoTok).2.1)
      ((Repository.tagsResolve env500 repoApp wNoTok).2.2) rfl,
   (C5_failed_resolution_leaves_cache_unpopulated env500).2.2.1 tagV1 wNoTok
      (.httpError 500 "Internal Server Error")
      ((Tag.manifestGet env500 tagV1 wNoTok).2.1)
      ((Tag.manifestGet env500 tagV1 wNoTok).2.2) rfl,
   (C5_failed_resolution_leaves_cache_unpopulated env500).2.2.2.1 manAbc wNoTok
      (.httpError 500 "Internal Server Error")
      ((Manifest.contentGet env500 manAbc wNoTok).2.1)
      ((Manifest.contentGet env500 manAbc wNoTok).2.2) rfl,
   (C5_failed_resolution_leaves_cache_unpopulated env500).2.2.2.2 manAbc wNoTok
      (.httpError 500 "Internal Server Error")
      ((Manifest.ageGet env500 manAbc wNoTok).2.1)
      ((Manifest.ageGet env500 manAbc wNoTok).2.2) rfl⟩

/-! ## Claim C9 -/

/-- **C9.** For every Registry (and Repository) whose backing catalog (or
tag list) fetch succeeds, `get(key, default)` returns the cached or
lazily-resolved child when the key is present, and returns the
caller-supplied default without raising when the key is absent; no network
call is made beyond the single call that populated the cache (with a
populated cache, `get` leaves the world — hence the trace — untouched;
otherwise the final world is exactly that of the one resolving fetch). -/
theorem C9_get_with_default (env : Env) :
    (∀ k dflt rg w d, rg.repositories = some d →
        Registry.get env k dflt rg w =
          (.ok (match lookupA d k with | some c => some c | none => dflt), rg, w)) ∧
    (∀ k dflt rg w d rg' w', Registry.reposResolve env rg w = (.ok d, rg', w') →
        Registry.get env k dflt rg w =
          (.ok (match lookupA d k with | some c => some c | none => dflt), rg', w') ∧
          rg'.repositories = some d) ∧
    (∀ k dflt r w d, r.tags = some d →
        Repository.get env k dflt r w =
          (.ok (match lookupA d k with | some t => some t | none => dflt), r, w)) ∧
    (∀ k dflt r w d r' w', Repository.tagsResolve env r w = (.ok d, r', w') →
        Repository.get env k dflt r w =
          (.ok (match lookupA d k with | some t => some t | none => dflt), r', w') ∧
          r'.tags = some d) := by
  have hreg : ∀ k dflt rg w d rg' w',
      Registry.reposResolve env rg w = (.ok d, rg', w') →
      Registry.get env k dflt rg w =
        (.ok (match lookupA d k with | some c => some c | none => dflt), rg', w') := by
    intro k dflt rg w d rg' w' h
    unfold Registry.get Registry.getItem
    rw [h]
    rcases hl : lookupA d k with _ | c <;> simp only [hl]
  have hrep : ∀ k dflt r w d r' w',
      Repository.tagsResolve env r w = (.ok d, r', w') →
      Repository.get env k dflt r w =
        (.ok (match lookupA d k with | some t => some t | none => dflt), r', w') := by
    intro k dflt r w d r' w' h
    unfold Repository.get Repository.getItem
    rw [h]
    rcases hl : lookupA d k with _ | t <;> simp only [hl]
  refine ⟨?_, ?_, ?_, ?_⟩
  · intro k dflt rg w d hc
    exact hreg k dflt rg w d rg w (reposResolve_cached env rg w d hc)
  · intro k dflt rg w d rg' w' h
    exact ⟨hreg k dflt rg w d rg' w' h, reposResolve_ok_cache env rg w d rg' w' h⟩
  · intro k dflt r w d hc
    exact hrep k dflt r w d r w (tagsResolve_cached env r w d hc)
  · intro k dflt r w d r' w' h
    exact ⟨hrep k dflt r w d r' w' h, tagsResolve_ok_cache env r w d r' w' h⟩

/-- A transport whose every response body lists repository `"app"` and tag
`"v1"`. -/
def envDual : Env :=
  { net := fun _ =>
      { statusCode := 200, reason := "OK",
        body := some (.objCons "repositories" (JVal.strs ["app"])
                        (.objCons "tags" (JVal.strs ["v1"]) .objNil)),
        contentType := none, dockerContentDigest := none }
    authEndpoint := fun _ => "tok" }

/-- A `Registry` whose catalog cache is already populated with `"app"`. -/
def rgCached : Registry :=
  { host := "reg.example", repositories := some [("app", repoApp)] }

/-- A `Repository` whose tag cache is already populated with `"v1"`. -/
def repoCached : Repository :=
  { repo := "app", tags := some [("v1", tagV1)] }

/-- Witness for C9: `get("missing", None)` on a populated cache returns
`None` without touching the world, and the resolving cases at the
concrete transport. -/
theorem C9_witness :
    Registry.get envDual "missing" none rgCached wNoTok = (.ok none, rgCached, wNoTok) ∧
    (Registry.get envDual "app" none rgFresh wNoTok =
        (.ok (some { repo := "app", tags := none }),
          (Registry.reposResolve envDual rgFresh wNoTok).2.1,
          (Registry.reposResolve envDual rgFresh wNoTok).2.2) ∧
      ((Registry.reposResolve envDual rgFresh wNoTok).2.1).repositories
        = some [("app", { repo := "app", tags := none })]) ∧
    Repository.get envDual "v1" none repoCached wNoTok =
      (.ok (some tagV1), repoCached, wNoTok) ∧
    (Repository.get envDual "missing" none repoApp wNoTok =
        (.ok none,
          (Repository.tagsResolve envDual repoApp wNoTok).2.1,
          (Repository.tagsResolve envDual repoApp wNoTok).2.2) ∧
      ((Repository.tagsResolve envDual repoApp wNoTok).2.1).tags
        = some [("v1", { repo := "app", tag := "v1", manifest := none })]) :=
  ⟨(C9_get_with_default envDual).1 "missing" none rgCached wNoTok
      [("app", repoApp)] rfl,
   (C9_get_with_default envDual).2.1 "app" none rgFresh wNoTok
      [("app", { repo := "app", tags := none })]
      ((Registry.reposResolve envDual rgFresh wNoTok).2.1)
      ((Registry.reposResolve envDual rgFresh wNoTok).2.2) rfl,
   (C9_get_with_default envDual).2.2.1 "v1" none repoCached wNoTok
      [("v1", tagV1)] rfl,
   (C9_get_with_default envDual).2.2.2 "missing" none repoApp wNoTok
      [("v1", { repo := "app", tag := "v1", manifest := none })]
      ((Repository.tagsResolve envDual repoApp wNoTok).2.1)
      ((Repository.tagsResolve envDual repoApp wNoTok).2.2) rfl⟩

/-! ## Claim C2 -/

theorem tagsResolve_world_none (env : Env) (r : Repository) (w : World)
    (h : r.tags = none) :
    (Repository.tagsResolve env r w).2.2 = (get_repository_tags env r.repo w).2 := by
  rcases hg : get_repository_tags env r.repo w with ⟨gres, w1⟩
  unfold Repository.tagsResolve
  rw [h, hg]
  cases gres with
  | error e1 => rfl
  | ok j =>
      rcases hj : jGet j "tags" with e1 | tagsJ <;> simp only [hj]
      rcases hs : asStrList tagsJ with e1 | names <;> simp only [hs]

theorem renewEventsOf_no_request (w : World) (e : Event)
    (he : e ∈ renewEventsOf w) : ∀ q, e ≠ Event.httpRequest q := by
  unfold renewEventsOf at he
  split at he
  · simp at he
    subst he
    intro q hq
    exact Event.noConfusion hq
  · simp at he

/-- **C2 (corrected).**  Two consecutive accesses of `repository.tags`
perform exactly one underlying listTags network call, on the first access
only, and both accesses read the same cached tag dict (the second access
returns a view with the same entries and changes nothing but the view-id
allocator).  However, each access wraps the dict in a *fresh*
`dict_values` view object, so the two returned collections are not the
identical object, and — `dict_values` defining no `__eq__` — they compare
unequal under Python `==`. -/
theorem C2_tags_single_fetch_fresh_views (env : Env) (r : Repository) (w : World)
    (v₁ : TagsView) (r₁ : Repository) (w₁ : World)
    (hnone : r.tags = none)
    (h : Repository.tagsView env r w = (.ok v₁, r₁, w₁)) :
    (∃ evs req,
        w₁.trace = w.trace ++ evs ++ [Event.httpRequest req] ∧
        req.path = listTagsPath r.repo ∧
        ∀ e ∈ evs, ∀ q, e ≠ Event.httpRequest q) ∧
    Repository.tagsView env r₁ w₁ =
      (.ok { viewId := w₁.nextId, entries := v₁.entries }, r₁,
        { w₁ with nextId := w₁.nextId + 1 }) ∧
    dictValuesEq v₁ { viewId := w₁.nextId, entries := v₁.entries } = false := by
  rcases ht : Repository.tagsResolve env r w with ⟨tres, r₂, w₂⟩
  unfold Repository.tagsView at h
  rw [ht] at h
  cases tres with
  | error e1 => simp at h
  | ok d =>
      simp only [Prod.mk.injEq, Except.ok.injEq] at h
      obtain ⟨hv, hr, hw⟩ := h
      have hw₂ : w₂ = (get_repository_tags env r.repo w).2 := by
        have hx := tagsResolve_world_none env r w hnone
        rw [ht] at hx
        exact hx
      have hcache : r₂.tags = some d := tagsResolve_ok_cache env r w d r₂ w₂ ht
      subst hv
      subst hr
      subst hw
      refine ⟨⟨renewEventsOf (setDesiredScope (repoScope r.repo) w),
        reqOf env .get (listTagsPath r.repo) none
          (setDesiredScope (repoScope r.repo) w), ?_, rfl, ?_⟩, ?_, ?_⟩
      · show w₂.trace = _
        rw [hw₂, listTags_world]
        rfl
      · intro e he q
        exact renewEventsOf_no_request _ e he q
      · unfold Repository.tagsView
        rw [tagsResolve_cached env r₂ _ d hcache]
      · show (decide (w₂.nextId = _)) = false
        rw [hw₂, listTags_world]
        simp [worldAfter]

/-- Counterexample to C2 as stated: at a concrete registry with one tag,
the two consecutive accesses of `repository.tags` return view objects
with distinct identities (view-ids 0 and 1), which are therefore not the
identical cached collection and compare unequal. -/
theorem C2_counterexample :
    (Repository.tagsView envDual repoApp wNoTok).1 =
      .ok { viewId := 0, entries := [("v1", tagV1)] } ∧
    (Repository.tagsView envDual
        (Repository.tagsView envDual repoApp wNoTok).2.1
        (Repository.tagsView envDual repoApp wNoTok).2.2).1 =
      .ok { viewId := 1, entries := [("v1", tagV1)] } ∧
    dictValuesEq { viewId := 0, entries := [("v1", tagV1)] }
      { viewId := 1, entries := [("v1", tagV1)] } = false :=
  ⟨rfl, rfl, rfl⟩

/-- Witness for the corrected C2 at the concrete one-tag registry. -/
theorem C2_witness :
    (∃ evs req,
        ((Repository.tagsView envDual repoApp wNoTok).2.2).trace =
          wNoTok.trace ++ evs ++ [Event.httpRequest req] ∧
        req.path = listTagsPath repoApp.repo ∧
        ∀ e ∈ evs, ∀ q, e ≠ Event.httpRequest q) ∧
    Repository.tagsView envDual (Repository.tagsView envDual repoApp wNoTok).2.1
        (Repository.tagsView envDual repoApp wNoTok).2.2 =
      (.ok { viewId := ((Repository.tagsView envDual repoApp wNoTok).2.2).nextId,
             entries := [("v1", tagV1)] },
        (Repository.tagsView envDual repoApp wNoTok).2.1,
        { (Repository.tagsView envDual repoApp wNoTok).2.2 with
            nextId := ((Repository.tagsView envDual repoApp wNoTok).2.2).nextId + 1 }) ∧
    dictValuesEq { viewId := 0, entries := [("v1", tagV1)] }
      { viewId := ((Repository.tagsView envDual repoApp wNoTok).2.2).nextId,
        entries := [("v1", tagV1)] } = false :=
  C2_tags_single_fetch_fresh_views envDual repoApp wNoTok
    { viewId := 0, entries := [("v1", tagV1)] }
    ((Repository.tagsView envDual repoApp wNoTok).2.1)
    ((Repository.tagsView envDual repoApp wNoTok).2.2) rfl rfl

/-! ## Claim C10 -/

theorem tagsResolve_nextId (env : Env) (r : Repository) (w : World) :
    (Repository.tagsResolve env r w).2.2.nextId = w.nextId := by
  rcases hc : r.tags with _ | d
  · rw [tagsResolve_world_none env r w hc, listTags_world]
    rfl
  · rw [tagsResolve_cached env r w d hc]

/-- A successful `tags` access returns a view freshly allocated at the
current counter, bumps the counter by one, and leaves the entries cached. -/
theorem tagsView_ok (env : Env) (r : Repository) (w : World)
    (v : TagsView) (r' : Repository) (w' : World)
    (h : Repository.tagsView env r w = (.ok v, r', w')) :
    v.viewId = w.nextId ∧ w'.nextId = w.nextId + 1 ∧ r'.tags = some v.entries := by
  rcases ht : Repository.tagsResolve env r w with ⟨tres, r₂, w₂⟩
  unfold Repository.tagsView at h
  rw [ht] at h
  cases tres with
  | error e => simp at h
  | ok d =>
      simp only [Prod.mk.injEq, Except.ok.injEq] at h
      obtain ⟨hv, hr, hw⟩ := h
      have hn2 : w₂.nextId = w.nextId := by
        have hx := tagsResolve_nextId env r w
        rw [ht] at hx
        exact hx
      have hcache : r₂.tags = some d := tagsResolve_ok_cache env r w d r₂ w₂ ht
      subst hv
      subst hr
      subst hw
      exact ⟨hn2, by simp [hn2], hcache⟩

/-- **C10.** For every two distinct `Repository` instances `r1` and `r2`,
`r1 == r2` never returns `True` — even when both have the same repository
name and tag mappings with equal contents — because `Repository.__eq__`
compares the `dict_values` views returned by the `tags` property, which
compare unequal unless they are the identical object (and the two views
are freshly allocated, hence never identical); when the names agree the
comparison also forces lazy tag resolution on both sides. -/
theorem C10_repository_eq_never_true (env : Env) (r1 r2 : Repository) (w : World) :
    (Repository.pyEq env r1 r2 w).1 ≠ .ok true ∧
    (∀ b r1' r2' w', r1.repo = r2.repo →
        Repository.pyEq env r1 r2 w = (.ok b, r1', r2', w') →
        b = false ∧ r1'.tags ≠ none ∧ r2'.tags ≠ none) := by
  constructor
  · by_cases hn : r1.repo = r2.repo
    · unfold Repository.pyEq
      rw [if_pos hn]
      rcases h1 : Repository.tagsView env r1 w with ⟨res1, r1a, w1⟩
      cases res1 with
      | error e => simp
      | ok v1 =>
          rcases h2 : Repository.tagsView env r2 w1 with ⟨res2, r2a, w2⟩
          simp only [h2]
          cases res2 with
          | error e => simp
          | ok v2 =>
              obtain ⟨hv1, hw1, -⟩ := tagsView_ok env r1 w v1 r1a w1 h1
              obtain ⟨hv2, -, -⟩ := tagsView_ok env r2 w1 v2 r2a w2 h2
              simp [dictValuesEq, hv1, hv2, hw1]
    · unfold Repository.pyEq
      rw [if_neg hn]
      simp
  · intro b r1' r2' w' hn h
    unfold Repository.pyEq at h
    rw [if_pos hn] at h
    rcases h1 : Repository.tagsView env r1 w with ⟨res1, r1a, w1⟩
    rw [h1] at h
    cases res1 with
    | error e => simp at h
    | ok v1 =>
        rcases h2 : Repository.tagsView env r2 w1 with ⟨res2, r2a, w2⟩
        simp only [h2] at h
        cases res2 with
        | error e => simp at h
        | ok v2 =>
            obtain ⟨hv1, hw1, hc1⟩ := tagsView_ok env r1 w v1 r1a w1 h1
            obtain ⟨hv2, -, hc2⟩ := tagsView_ok env r2 w1 v2 r2a w2 h2
            simp only [Prod.mk.injEq, Except.ok.injEq] at h
            obtain ⟨hb, hr1, hr2, -⟩ := h
            subst hb
            subst hr1
            subst hr2
            refine ⟨?_, by simp [hc1], by simp [hc2]⟩
            simp [dictValuesEq, hv1, hv2, hw1]

/-- Witness for C10 at two same-named repositories over the concrete
one-tag registry: `__eq__` evaluates to `False` and both tag caches are
forced. -/
theorem C10_witness :
    (Repository.pyEq envDual repoApp repoApp wNoTok).1 ≠ .ok true ∧
    (false = false ∧
      ((Repository.pyEq envDual repoApp repoApp wNoTok).2.1).tags ≠ none ∧
      ((Repository.pyEq envDual repoApp repoApp wNoTok).2.2.1).tags ≠ none) :=
  ⟨(C10_repository_eq_never_true envDual repoApp repoApp wNoTok).1,
   (C10_repository_eq_never_true envDual repoApp repoApp wNoTok).2 false
     ((Repository.pyEq envDual repoApp repoApp wNoTok).2.1)
     ((Repository.pyEq envDual repoApp repoApp wNoTok).2.2.1)
     ((Repository.pyEq envDual repoApp repoApp wNoTok).2.2.2) rfl rfl⟩

/-! ## Claim C3 -/

theorem get_manifest_ok (env : Env) (n ref : String) (w : World)
    (cm : ClientManifest) (w₁ : World)
    (h : get_manifest env n ref w = (.ok cm, w₁)) :
    cm.digest =
      (env.net (reqOf env .get (manifestPath n ref) (some schema_2)
        (setDesiredScope (repoScope n) w))).dockerContentDigest ∧
    w₁ = worldAfter env .get (manifestPath n ref) (some schema_2)
      (setDesiredScope (repoScope n) w) := by
  simp only [get_manifest] at h
  rw [httpResponseV2_eq] at h
  rcases hr : respResult env .get (manifestPath n ref) (some schema_2)
      (setDesiredScope (repoScope n) w) with e | resp <;> simp only [hr] at h
  · simp at h
  · rcases hj : respJson resp with e | j <;> simp only [hj] at h
    · simp at h
    · have hresp : resp = env.net (reqOf env .get (manifestPath n ref) (some schema_2)
          (setDesiredScope (repoScope n) w)) := by
        unfold respResult at hr
        by_cases hs : 400 ≤ (env.net (reqOf env .get (manifestPath n ref)
            (some schema_2) (setDesiredScope (repoScope n) w))).statusCode
        · simp [hs] at hr
        · simp [hs] at hr
          exact hr.symm
      simp only [Prod.mk.injEq, Except.ok.injEq] at h
      obtain ⟨hcm, hw⟩ := h
      subst hcm
      exact ⟨by rw [← hresp], hw.symm⟩

theorem gmad_ok (env : Env) (n ref : String) (w : World)
    (c : JVal) (dg : Option String) (w₁ : World)
    (h : get_manifest_and_digest env n ref w = (.ok (c, dg), w₁)) :
    dg = (env.net (reqOf env .get (manifestPath n ref) (some schema_2)
        (setDesiredScope (repoScope n) w))).dockerContentDigest ∧
    w₁ = worldAfter env .get (manifestPath n ref) (some schema_2)
      (setDesiredScope (repoScope n) w) := by
  unfold get_manifest_and_digest at h
  rcases hm : get_manifest env n ref w with ⟨mres, w₂⟩
  rw [hm] at h
  cases mres with
  | error e => simp at h
  | ok cm =>
      simp only [Prod.mk.injEq, Except.ok.injEq] at h
      obtain ⟨⟨-, hdg⟩, hw⟩ := h
      obtain ⟨hd, hwa⟩ := get_manifest_ok env n ref w cm w₂ hm
      exact ⟨hdg ▸ hd, hw ▸ hwa⟩

/-- **C3.** Whenever `Tag.manifest` resolves a manifest by tag via
`getManifest`, the digest stored in the constructed and cached `Manifest`
instance is exactly the value of the `Docker-Content-Digest` response
header of the manifest request — never a value recomputed from the
manifest content. -/
theorem C3_digest_from_header (env : Env) (t : Tag) (w : World)
    (m : Manifest) (t' : Tag) (w' : World)
    (hnone : t.manifest = none)
    (h : Tag.manifestGet env t w = (.ok m, t', w')) :
    ∃ req : Request,
      Event.httpRequest req ∈ w'.trace ∧
      req.path = manifestPath t.repo t.tag ∧
      m.digest = (env.net req).dockerContentDigest ∧
      t'.manifest = some m := by
  unfold Tag.manifestGet at h
  rw [hnone] at h
  rcases hg : get_manifest_and_digest env t.repo t.tag w with ⟨gres, w₁⟩
  rw [hg] at h
  cases gres with
  | error e => simp at h
  | ok cd =>
      rcases cd with ⟨c, dg⟩
      simp only [Prod.mk.injEq, Except.ok.injEq] at h
      obtain ⟨hm, ht, hw⟩ := h
      obtain ⟨hd, hwa⟩ := gmad_ok env t.repo t.tag w c dg w₁ hg
      refine ⟨reqOf env .get (manifestPath t.repo t.tag) (some schema_2)
        (setDesiredScope (repoScope t.repo) w), ?_, rfl, ?_, ?_⟩
      · rw [← hw, hwa]
        show _ ∈ _ ++ _ ++ [_]
        simp
      · rw [← hm, hd]
      · rw [← ht, ← hm]

/-- A transport answering manifest requests with a fixed content digest
header. -/
def envMan : Env :=
  { net := fun _ =>
      { statusCode := 200, reason := "OK",
        body := some (.objCons "layers" .arrNil .objNil),
        contentType := some "application/json",
        dockerContentDigest := some "sha256:abc" }
    authEndpoint := fun _ => "tok" }

/-- Witness for C3 at a concrete tag resolution. -/
theorem C3_witness :
    ∃ req : Request,
      Event.httpRequest req ∈ ((Tag.manifestGet envMan tagV1 wNoTok).2.2).trace ∧
      req.path = manifestPath tagV1.repo tagV1.tag ∧
      ({ repo := "app", digest := some "sha256:abc",
         content := some (.objCons "layers" .arrNil .objNil),
         age := none } : Manifest).digest = (envMan.net req).dockerContentDigest ∧
      ((Tag.manifestGet envMan tagV1 wNoTok).2.1).manifest =
        some { repo := "app", digest := some "sha256:abc",
               content := some (.objCons "layers" .arrNil .objNil), age := none } :=
  C3_digest_from_header envMan tagV1 wNoTok
    { repo := "app", digest := some "sha256:abc",
      content := some (.objCons "layers" .arrNil .objNil), age := none }
    ((Tag.manifestGet envMan tagV1 wNoTok).2.1)
    ((Tag.manifestGet envMan tagV1 wNoTok).2.2) rfl rfl

/-! ## Claim C7 -/

theorem contentGet_ok (env : Env) (m : Manifest) (w : World)
    (c : JVal) (m' : Manifest) (w' : World)
    (h : Manifest.contentGet env m w = (.ok c, m', w')) : m'.content = some c := by
  rcases hc : m.content with _ | c0
  · rcases hg : get_manifest_and_digest env m.repo (pyStr m.digest) w with ⟨gres, w1⟩
    unfold Manifest.contentGet at h
    rw [hc, hg] at h
    cases gres with
    | error e => simp at h
    | ok cd =>
        rcases cd with ⟨cc, dd⟩
        simp only [Prod.mk.injEq, Except.ok.injEq] at h
        obtain ⟨hcc, hm, -⟩ := h
        rw [← hm, hcc]
  · unfold Manifest.contentGet at h
    rw [hc] at h
    simp only [Prod.mk.injEq, Except.ok.injEq] at h
    obtain ⟨hcc, hm, -⟩ := h
    rw [← hm, hc, hcc]

/-- **C7.** For every two `Manifest` instances `m1` and `m2`,
`m1 == m2` holds if and only if their repository strings match, their
digest strings match, and their contents (fetched lazily if not yet
resolved — the post-comparison states `m1'`, `m2'` hold the resolved
contents) match. -/
theorem C7_manifest_eq_iff (env : Env) (m1 m2 : Manifest) (w : World)
    (b : Bool) (m1' m2' : Manifest) (w' : World)
    (h : Manifest.pyEq env m1 m2 w = (.ok b, m1', m2', w')) :
    b = true ↔
      m1.repo = m2.repo ∧ m1.digest = m2.digest ∧ m1'.content = m2'.content := by
  unfold Manifest.pyEq at h
  by_cases hd : m1.digest = m2.digest
  · rw [if_pos hd] at h
    by_cases hrp : m1.repo = m2.repo
    · rw [if_pos hrp] at h
      rcases h1 : Manifest.contentGet env m1 w with ⟨c1res, m1a, w1⟩
      rw [h1] at h
      cases c1res with
      | error e => simp at h
      | ok c1 =>
          rcases h2 : Manifest.contentGet env m2 w1 with ⟨c2res, m2a, w2⟩
          simp only [h2] at h
          cases c2res with
          | error e => simp at h
          | ok c2 =>
              simp only [Prod.mk.injEq, Except.ok.injEq] at h
              obtain ⟨hb, hm1, hm2, -⟩ := h
              have hc1 : m1a.content = some c1 := contentGet_ok env m1 w c1 m1a w1 h1
              have hc2 : m2a.content = some c2 := contentGet_ok env m2 w1 c2 m2a w2 h2
              subst hb
              subst hm1
              subst hm2
              simp [hd, hrp, hc1, hc2]
    · rw [if_neg hrp] at h
      simp only [Prod.mk.injEq, Except.ok.injEq] at h
      obtain ⟨hb, -, -, -⟩ := h
      subst hb
      simp [hrp]
  · rw [if_neg hd] at h
    simp only [Prod.mk.injEq, Except.ok.injEq] at h
    obtain ⟨hb, -, -, -⟩ := h
    subst hb
    simp [hd]

/-- Witness for C7: two unresolved manifests of the same repository and
digest compare equal after both contents are lazily fetched from the
concrete transport. -/
theorem C7_witness :
    true = true ↔
      manAbc.repo = manAbc.repo ∧ manAbc.digest = manAbc.digest ∧
      ((Manifest.pyEq envMan manAbc manAbc wNoTok).2.1).content =
        ((Manifest.pyEq envMan manAbc manAbc wNoTok).2.2.1).content :=
  C7_manifest_eq_iff envMan manAbc manAbc wNoTok true
    ((Manifest.pyEq envMan manAbc manAbc wNoTok).2.1)
    ((Manifest.pyEq envMan manAbc manAbc wNoTok).2.2.1)
    ((Manifest.pyEq envMan manAbc manAbc wNoTok).2.2.2) rfl

/-! ## Claim C8 -/

/-- **C8.** For every `Manifest` whose content carries a config descriptor
and whose referenced config blob has an RFC 3339 `created` timestamp, the
first access of `Manifest.age` fetches that blob, parses the timestamp
with any sub-second precision truncated (everything after the first `'.'`
is dropped before parsing), caches the resulting datetime, and every
subsequent access returns the cached value without further network calls
(identical world, hence identical trace). -/
theorem C8_age_fetch_truncate_cache (env : Env) (m : Manifest) (w : World)
    (c conf : JVal) (m₁ : Manifest) (w₁ : World)
    (d mt : String) (blob : JVal) (w₂ : World) (ts : String) (dt : PyDatetime)
    (hage : m.age = none)
    (hc : Manifest.contentGet env m w = (.ok c, m₁, w₁))
    (hconf : jGet c "config" = .ok conf)
    (hd : jGetStr conf "digest" = .ok d)
    (hmt : jGetStr conf "mediaType" = .ok mt)
    (hb : get_blob env m₁.repo d mt w₁ = (.ok blob, w₂))
    (hcr : jGetStr blob "created" = .ok ts)
    (hp : strptimeYmdHMS (pySplitDotHead ts) = .ok dt) :
    Manifest.ageGet env m w = (.ok dt, { m₁ with age := some dt }, w₂) ∧
    (∃ req : Request,
        Event.httpRequest req ∈ w₂.trace ∧ req.path = blobPath m₁.repo d) ∧
    Manifest.ageGet env { m₁ with age := some dt } w₂ =
      (.ok dt, { m₁ with age := some dt }, w₂) := by
  refine ⟨?_, ?_, rfl⟩
  · unfold Manifest.ageGet
    simp only [hage, hc, hconf, hd, hmt, hb, hcr, hp]
  · refine ⟨reqOf env .get (blobPath m₁.repo d) (some mt)
      (setDesiredScope (repoScope m₁.repo) w₁), ?_, rfl⟩
    have hw : w₂ = (get_blob env m₁.repo d mt w₁).2 := by rw [hb]
    rw [hw, get_blob_world]
    show _ ∈ _ ++ _ ++ [_]
    simp

/-- A transport whose single response serves both as manifest content (with
a config descriptor) and as the config blob (with a fractional-second
`created` timestamp). -/
def envAge : Env :=
  { net := fun _ =>
      { statusCode := 200, reason := "OK",
        body := some
          (.objCons "config"
            (.objCons "digest" (.str "sha256:cfg")
              (.objCons "mediaType" (.str "application/octet") .objNil))
            (.objCons "created" (.str "2020-01-02T03:04:05.123456Z") .objNil)),
        contentType := some "application/json",
        dockerContentDigest := some "sha256:abc" }
    authEndpoint := fun _ => "tok" }

/-- The JSON body served by `envAge`. -/
def ageBody : JVal :=
  .objCons "config"
    (.objCons "digest" (.str "sha256:cfg")
      (.objCons "mediaType" (.str "application/octet") .objNil))
    (.objCons "created" (.str "2020-01-02T03:04:05.123456Z") .objNil)

/-- Witness for C8 at the concrete blob with timestamp
`2020-01-02T03:04:05.123456Z`, truncated to whole seconds. -/
theorem C8_witness :
    Manifest.ageGet envAge manAbc wNoTok =
      (.ok { year := 2020, month := 1, day := 2, hour := 3, minute := 4, second := 5 },
        { (Manifest.contentGet envAge manAbc wNoTok).2.1 with
            age := some { year := 2020, month := 1, day := 2,
                          hour := 3, minute := 4, second := 5 } },
        (get_blob envAge ((Manifest.contentGet envAge manAbc wNoTok).2.1).repo
          "sha256:cfg" "application/octet"
          (Manifest.contentGet envAge manAbc wNoTok).2.2).2) ∧
    (∃ req : Request,
        Event.httpRequest req ∈
          ((get_blob envAge ((Manifest.contentGet envAge manAbc wNoTok).2.1).repo
            "sha256:cfg" "application/octet"
            (Manifest.contentGet envAge manAbc wNoTok).2.2).2).trace ∧
        req.path = blobPath ((Manifest.contentGet envAge manAbc wNoTok).2.1).repo
          "sha256:cfg") ∧
    Manifest.ageGet envAge
      { (Manifest.contentGet envAge manAbc wNoTok).2.1 with
          age := some { year := 2020, month := 1, day := 2,
                        hour := 3, minute := 4, second := 5 } }
      (get_blob envAge ((Manifest.contentGet envAge manAbc wNoTok).2.1).repo
        "sha256:cfg" "application/octet"
        (Manifest.contentGet envAge manAbc wNoTok).2.2).2 =
      (.ok { year := 2020, month := 1, day := 2, hour := 3, minute := 4, second := 5 },
        { (Manifest.contentGet envAge manAbc wNoTok).2.1 with
            age := some { year := 2020, month := 1, day := 2,
                          hour := 3, minute := 4, second := 5 } },
        (get_blob envAge ((Manifest.contentGet envAge manAbc wNoTok).2.1).repo
          "sha256:cfg" "application/octet"
          (Manifest.contentGet envAge manAbc wNoTok).2.2).2) :=
  C8_age_fetch_truncate_cache envAge manAbc wNoTok
    ageBody
    (.objCons "digest" (.str "sha256:cfg")
      (.objCons "mediaType" (.str "application/octet") .objNil))
    ((Manifest.contentGet envAge manAbc wNoTok).2.1)
    ((Manifest.contentGet envAge manAbc wNoTok).2.2)
    "sha256:cfg" "application/octet" ageBody
    (get_blob envAge ((Manifest.contentGet envAge manAbc wNoTok).2.1).repo
      "sha256:cfg" "application/octet"
      (Manifest.contentGet envAge manAbc wNoTok).2.2).2
    "2020-01-02T03:04:05.123456Z"
    { year := 2020, month := 1, day := 2, hour := 3, minute := 4, second := 5 }
    rfl rfl rfl rfl rfl rfl rfl rfl

/-! ## Claim C6 -/

/-- The request a client operation issues (through
`BaseClientV2._http_response`) from a given world. -/
def opRequest (env : Env) (op : ClientOp) (w : World) : Request :=
  reqOf env (opMethod op) (opPath op) (opSchema op) (setDesiredScope (opScope op) w)

theorem httpCallV2_fst_err (env : Env) (m : Method) (p : String)
    (sch : Option String) (w : World)
    (hbad : 400 ≤ (env.net (reqOf env m p sch w)).statusCode) :
    (httpCallV2 env m p sch w).1 =
      .error (.httpError (env.net (reqOf env m p sch w)).statusCode
        (env.net (reqOf env m p sch w)).reason) := by
  unfold httpCallV2
  rw [httpResponseV2_eq]
  have hr : respResult env m p sch w =
      .error (.httpError (env.net (reqOf env m p sch w)).statusCode
        (env.net (reqOf env m p sch w)).reason) := by
    unfold respResult
    simp [hbad]
  simp only [hr]

theorem get_manifest_fst_err (env : Env) (n ref : String) (w : World)
    (hbad : 400 ≤ (env.net (reqOf env .get (manifestPath n ref) (some schema_2)
      (setDesiredScope (repoScope n) w))).statusCode) :
    (get_manifest env n ref w).1 =
      .error (.httpError
        (env.net (reqOf env .get (manifestPath n ref) (some schema_2)
          (setDesiredScope (repoScope n) w))).statusCode
        (env.net (reqOf env .get (manifestPath n ref) (some schema_2)
          (setDesiredScope (repoScope n) w))).reason) := by
  simp only [get_manifest]
  rw [httpResponseV2_eq]
  have hr : respResult env .get (manifestPath n ref) (some schema_2)
      (setDesiredScope (repoScope n) w) =
      .error (.httpError
        (env.net (reqOf env .get (manifestPath n ref) (some schema_2)
          (setDesiredScope (repoScope n) w))).statusCode
        (env.net (reqOf env .get (manifestPath n ref) (some schema_2)
          (setDesiredScope (repoScope n) w))).reason) := by
    unfold respResult
    simp [hbad]
  simp only [hr]

theorem get_blob_fst_err (env : Env) (n d s : String) (w : World)
    (hbad : 400 ≤ (env.net (reqOf env .get (blobPath n d) (some s)
      (setDesiredScope (repoScope n) w))).statusCode) :
    (get_blob env n d s w).1 =
      .error (.httpError
        (env.net (reqOf env .get (blobPath n d) (some s)
          (setDesiredScope (repoScope n) w))).statusCode
        (env.net (reqOf env .get (blobPath n d) (some s)
          (setDesiredScope (repoScope n) w))).reason) := by
  simp only [get_blob]
  rw [httpResponseV2_eq]
  have hr : respResult env .get (blobPath n d) (some s)
      (setDesiredScope (repoScope n) w) =
      .error (.httpError
        (env.net (reqOf env .get (blobPath n d) (some s)
          (setDesiredScope (repoScope n) w))).statusCode
        (env.net (reqOf env .get (blobPath n d) (some s)
          (setDesiredScope (repoScope n) w))).reason) := by
    unfold respResult
    simp [hbad]
  simp only [hr]

/-- **C6 (corrected).**  For every client HTTP operation, an HTTP failure
(non-success status on the operation's request) propagates to the caller
as an error carrying the response status code and reason — but the
transport session is *not* closed by the operation: all client operations
dispatch to `BaseClientV2._http_response`, which, unlike
`CommonBaseClient._http_response`, has no `try/except` closing the
session; the session-closed flag is left exactly as it was. -/
theorem C6_http_failure_propagates_session_left_open (env : Env)
    (op : ClientOp) (w : World)
    (hbad : 400 ≤ (env.net (opRequest env op w)).statusCode) :
    (runOp env op w).1 =
      .error (.httpError (env.net (opRequest env op w)).statusCode
        (env.net (opRequest env op w)).reason) ∧
    (runOp env op w).2.sessionClosed = w.sessionClosed ∧
    Event.httpRequest (opRequest env op w) ∈ (runOp env op w).2.trace := by
  refine ⟨?_, ?_, ?_⟩
  · cases op with
    | catalogOp =>
        show ((catalog env w).1.map fun _ => ()) = _
        rw [show (catalog env w).1 = (httpCallV2 env .get "/v2/_catalog" none
          (setDesiredScope "registry:catalog:*" w)).1 from rfl,
          httpCallV2_fst_err env .get "/v2/_catalog" none
            (setDesiredScope "registry:catalog:*" w) hbad]
        rfl
    | listTagsOp n =>
        show ((get_repository_tags env n w).1.map fun _ => ()) = _
        rw [show (get_repository_tags env n w).1 = (httpCallV2 env .get
          (listTagsPath n) none (setDesiredScope (repoScope n) w)).1 from rfl,
          httpCallV2_fst_err env .get (listTagsPath n) none
            (setDesiredScope (repoScope n) w) hbad]
        rfl
    | getManifestOp n ref =>
        show ((get_manifest env n ref w).1.map fun _ => ()) = _
        rw [get_manifest_fst_err env n ref w hbad]
        rfl
    | deleteManifestOp n d =>
        show ((delete_manifest env n d w).1.map fun _ => ()) = _
        rw [show (delete_manifest env n d w).1 = (httpCallV2 env .delete
          (manifestPath n d) none (setDesiredScope (repoScope n) w)).1 from rfl,
          httpCallV2_fst_err env .delete (manifestPath n d) none
            (setDesiredScope (repoScope n) w) hbad]
        rfl
    | getBlobOp n d s =>
        show ((get_blob env n d s w).1.map fun _ => ()) = _
        rw [get_blob_fst_err env n d s w hbad]
        rfl
    | deleteBlobOp n d =>
        show ((delete_blob env n d w).1.map fun _ => ()) = _
        rw [show (delete_blob env n d w).1 = (httpCallV2 env .delete
          (blobPath n d) none (setDesiredScope (repoScope n) w)).1 from rfl,
          httpCallV2_fst_err env .delete (blobPath n d) none
            (setDesiredScope (repoScope n) w) hbad]
        rfl
  · rw [runOp_snd, httpResponseV2_snd]
    rfl
  · rw [runOp_snd, httpResponseV2_snd]
    show _ ∈ _ ++ _ ++ [_]
    simp [opRequest]

/-- Counterexample to C6 as stated: a failing catalog call propagates the
status and reason but leaves the session open
(`BaseClientV2._http_response` has no closing `try/except`), while the
base-class `CommonBaseClient._http_response` — not used by the client
operations — would have closed it. -/
theorem C6_counterexample :
    (runOp env500 .catalogOp wNoTok).1 =
      .error (.httpError 500 "Internal Server Error") ∧
    (runOp env500 .catalogOp wNoTok).2.sessionClosed = false ∧
    (commonHttpResponse env500 .get "/v2/_catalog" wNoTok).2.sessionClosed = true :=
  ⟨rfl, rfl, rfl⟩

/-- Witness for the corrected C6 at the failing transport. -/
theorem C6_witness :
    (runOp env500 .catalogOp wNoTok).1 =
      .error (.httpError (env500.net (opRequest env500 .catalogOp wNoTok)).statusCode
        (env500.net (opRequest env500 .catalogOp wNoTok)).reason) ∧
    (runOp env500 .catalogOp wNoTok).2.sessionClosed = wNoTok.sessionClosed ∧
    Event.httpRequest (opRequest env500 .catalogOp wNoTok) ∈
      (runOp env500 .catalogOp wNoTok).2.trace :=
  C6_http_failure_propagates_session_left_open env500 .catalogOp wNoTok (by decide)

/-! ## Claim C4 -/

/-- A registry fixture for C4: one repository, its tag list, and for every
tag the digest (as served in the `Docker-Content-Digest` header) and the
manifest content the registry serves for it.  `tagOfPath` tells which
tag a request path addresses (constrained by the theorem's hypotheses). -/
structure Fixture where
  repo : String
  tagNames : List String
  dg : String → Option String
  ct : String → JVal
  tagOfPath : String → Option String

/-- The transport of a fixture registry: GETs of a tag's manifest path
serve its content and digest, the tag-list path serves the tag list,
DELETEs are accepted with an empty body, anything else is 404. -/
def fixtureNet (f : Fixture) (req : Request) : HttpResponse :=
  match req.method with
  | .get =>
      match f.tagOfPath req.path with
      | some t =>
          { statusCode := 200, reason := "OK", body := some (f.ct t),
            contentType := none, dockerContentDigest := f.dg t }
      | none =>
          if req.path = listTagsPath f.repo then
            { statusCode := 200, reason := "OK",
              body := some (.objCons "tags" (JVal.strs f.tagNames) .objNil),
              contentType := none, dockerContentDigest := none }
          else
            { statusCode := 404, reason := "Not Found", body := none,
              contentType := none, dockerContentDigest := none }
  | .delete =>
      { statusCode := 202, reason := "Accepted", body := none,
        contentType := none, dockerContentDigest := none }
  | .put =>
      { statusCode := 404, reason := "Not Found", body := none,
        contentType := none, dockerContentDigest := none }

/-- The environment built from a fixture. -/
def fixEnv (f : Fixture) (aep : Option String → String) : Env :=
  { net := fixtureNet f, authEndpoint := aep }

/-- The manifest `Tag.manifest` builds for a fixture tag. -/
def mkMan (f : Fixture) (t : String) : Manifest :=
  { repo := f.repo, digest := f.dg t, content := some (f.ct t), age := none }

/-- The manifest GET request issued for a fixture tag (no token auth). -/
def mreqF (f : Fixture) (t : String) : Request :=
  { method := .get, path := manifestPath f.repo t,
    accept := some schema_2, authorization := none }

/-- The paths of the DELETE requests among a list of events. -/
def deletePaths (evs : List Event) : List String :=
  evs.filterMap fun e =>
    match e with
    | .httpRequest req => if req.method = .delete then some req.path else none
    | _ => none

theorem reqOf_noauth (env : Env) (m : Method) (p : String) (sch : Option String)
    (w : World) (h : w.auth.tokenRequired = false) :
    reqOf env m p sch w =
      { method := m, path := p, accept := some (sch.getD schema_2),
        authorization := none } := by
  unfold reqOf
  simp [h]

theorem worldAfter_noauth (env : Env) (m : Method) (p : String)
    (sch : Option String) (w : World) (h : w.auth.tokenRequired = false) :
    worldAfter env m p sch w =
      { w with trace := w.trace ++ [Event.httpRequest (reqOf env m p sch w)] } := by
  unfold worldAfter renewEventsOf authAfter renewNeeded
  simp [h]

theorem fixture_get_manifest (f : Fixture) (aep : Option String → String)
    (w : World) (t : String)
    (hreq : w.auth.tokenRequired = false)
    (hpt : f.tagOfPath (manifestPath f.repo t) = some t) :
    get_manifest (fixEnv f aep) f.repo t w =
      (.ok { content := f.ct t, type := "application/json", digest := f.dg t },
       { auth := { w.auth with desiredScope := some (repoScope f.repo) }
         sessionClosed := w.sessionClosed
         nextId := w.nextId
         trace := w.trace ++ [Event.httpRequest (mreqF f t)] }) := by
  have hws : (setDesiredScope (repoScope f.repo) w).auth.tokenRequired = false := hreq
  have hnet : (fixEnv f aep).net (reqOf (fixEnv f aep) .get (manifestPath f.repo t)
      (some schema_2) (setDesiredScope (repoScope f.repo) w)) =
      { statusCode := 200, reason := "OK", body := some (f.ct t),
        contentType := none, dockerContentDigest := f.dg t } := by
    rw [reqOf_noauth _ _ _ _ _ hws]
    simp [fixEnv, fixtureNet, hpt]
  have hrr : respResult (fixEnv f aep) .get (manifestPath f.repo t) (some schema_2)
      (setDesiredScope (repoScope f.repo) w) =
      .ok { statusCode := 200, reason := "OK", body := some (f.ct t),
            contentType := none, dockerContentDigest := f.dg t } := by
    unfold respResult
    rw [hnet]
    rfl
  simp only [get_manifest]
  rw [httpResponseV2_eq]
  simp only [hrr]
  rw [worldAfter_noauth _ _ _ _ _ hws, reqOf_noauth _ _ _ _ _ hws]
  rfl

theorem fixture_gmad (f : Fixture) (aep : Option String → String)
    (w : World) (t : String)
    (hreq : w.auth.tokenRequired = false)
    (hpt : f.tagOfPath (manifestPath f.repo t) = some t) :
    get_manifest_and_digest (fixEnv f aep) f.repo t w =
      (.ok (f.ct t, f.dg t),
       { auth := { w.auth with desiredScope := some (repoScope f.repo) }
         sessionClosed := w.sessionClosed
         nextId := w.nextId
         trace := w.trace ++ [Event.httpRequest (mreqF f t)] }) := by
  unfold get_manifest_and_digest
  rw [fixture_get_manifest f aep w t hreq hpt]

theorem tag_fetch (f : Fixture) (aep : Option String → String)
    (w : World) (t : String)
    (hreq : w.auth.tokenRequired = false)
    (hpt : f.tagOfPath (manifestPath f.repo t) = some t) :
    Tag.manifestGet (fixEnv f aep) { repo := f.repo, tag := t, manifest := none } w =
      (.ok (mkMan f t),
       { repo := f.repo, tag := t, manifest := some (mkMan f t) },
       { auth := { w.auth with desiredScope := some (repoScope f.repo) }
         sessionClosed := w.sessionClosed
         nextId := w.nextId
         trace := w.trace ++ [Event.httpRequest (mreqF f t)] }) := by
  have hg := fixture_gmad f aep w t hreq hpt
  unfold Tag.manifestGet
  simp only [hg]
  rfl

/-- The tag-list GET request issued against a fixture (no token auth). -/
def lreqF (f : Fixture) : Request :=
  { method := .get, path := listTagsPath f.repo,
    accept := some schema_2, authorization := none }

/-- The tag dict `Repository._tags` builds for a fixture. -/
def tagEntries (f : Fixture) : List (String × Tag) :=
  f.tagNames.map fun tg => (tg, { repo := f.repo, tag := tg, manifest := none })

/-- The tag dict after every tag's manifest has been forced. -/
def updEntries (f : Fixture) (names : List String) : List (String × Tag) :=
  names.map fun tg => (tg, { repo := f.repo, tag := tg, manifest := some (mkMan f tg) })

theorem fixture_listTags (f : Fixture) (aep : Option String → String)
    (w : World)
    (hreq : w.auth.tokenRequired = false)
    (hlp : f.tagOfPath (listTagsPath f.repo) = none) :
    get_repository_tags (fixEnv f aep) f.repo w =
      (.ok (.objCons "tags" (JVal.strs f.tagNames) .objNil),
       { auth := { w.auth with desiredScope := some (repoScope f.repo) }
         sessionClosed := w.sessionClosed
         nextId := w.nextId
         trace := w.trace ++ [Event.httpRequest (lreqF f)] }) := by
  have hws : (setDesiredScope (repoScope f.repo) w).auth.tokenRequired = false := hreq
  have hnet : (fixEnv f aep).net (reqOf (fixEnv f aep) .get (listTagsPath f.repo)
      none (setDesiredScope (repoScope f.repo) w)) =
      { statusCode := 200, reason := "OK",
        body := some (.objCons "tags" (JVal.strs f.tagNames) .objNil),
        contentType := none, dockerContentDigest := none } := by
    rw [reqOf_noauth _ _ _ _ _ hws]
    simp [fixEnv, fixtureNet, hlp]
  have hrr : respResult (fixEnv f aep) .get (listTagsPath f.repo) none
      (setDesiredScope (repoScope f.repo) w) =
      .ok { statusCode := 200, reason := "OK",
            body := some (.objCons "tags" (JVal.strs f.tagNames) .objNil),
            contentType := none, dockerContentDigest := none } := by
    unfold respResult
    rw [hnet]
    rfl
  show httpCallV2 _ _ _ _ _ = _
  unfold httpCallV2
  rw [httpResponseV2_eq]
  simp only [hrr]
  rw [worldAfter_noauth _ _ _ _ _ hws, reqOf_noauth _ _ _ _ _ hws]
  rfl

theorem fixture_tagsResolve (f : Fixture) (aep : Option String → String)
    (w : World)
    (hreq : w.auth.tokenRequired = false)
    (hlp : f.tagOfPath (listTagsPath f.repo) = none) :
    Repository.tagsResolve (fixEnv f aep) { repo := f.repo, tags := none } w =
      (.ok (tagEntries f), { repo := f.repo, tags := some (tagEntries f) },
       { auth := { w.auth with desiredScope := some (repoScope f.repo) }
         sessionClosed := w.sessionClosed
         nextId := w.nextId
         trace := w.trace ++ [Event.httpRequest (lreqF f)] }) := by
  have hlt := fixture_listTags f aep w hreq hlp
  unfold Repository.tagsResolve
  simp only [hlt,
    show jGet (.objCons "tags" (JVal.strs f.tagNames) .objNil) "tags" =
      .ok (JVal.strs f.tagNames) from rfl,
    asStrList_strs]
  rfl

theorem fixture_tagsView (f : Fixture) (aep : Option String → String)
    (w : World)
    (hreq : w.auth.tokenRequired = false)
    (hlp : f.tagOfPath (listTagsPath f.repo) = none) :
    Repository.tagsView (fixEnv f aep) { repo := f.repo, tags := none } w =
      (.ok { viewId := w.nextId, entries := tagEntries f },
       { repo := f.repo, tags := some (tagEntries f) },
       { auth := { w.auth with desiredScope := some (repoScope f.repo) }
         sessionClosed := w.sessionClosed
         nextId := w.nextId + 1
         trace := w.trace ++ [Event.httpRequest (lreqF f)] }) := by
  unfold Repository.tagsView
  rw [fixture_tagsResolve f aep w hreq hlp]

/-- Walking the tag dict of a fixture: each tag's manifest is fetched
(one GET per tag, in order), the tags are written back with their
manifests cached, and the set is the pure `setAddManifest` fold. -/
theorem fold_fix (f : Fixture) (aep : Option String → String)
    (names : List String) :
    ∀ (acc : List Manifest) (w : World),
      w.auth.tokenRequired = false →
      (∀ t ∈ names, f.tagOfPath (manifestPath f.repo t) = some t) →
      (manifestSetFold (fixEnv f aep) acc
          (names.map fun tg => (tg, ({ repo := f.repo, tag := tg, manifest := none } : Tag))) w).1 =
        .ok (names.foldl (fun a t => setAddManifest a (mkMan f t)) acc) ∧
      (manifestSetFold (fixEnv f aep) acc
          (names.map fun tg => (tg, ({ repo := f.repo, tag := tg, manifest := none } : Tag))) w).2.1 =
        updEntries f names ∧
      (manifestSetFold (fixEnv f aep) acc
          (names.map fun tg => (tg, ({ repo := f.repo, tag := tg, manifest := none } : Tag))) w).2.2.trace =
        w.trace ++ names.map (fun t => Event.httpRequest (mreqF f t)) ∧
      (manifestSetFold (fixEnv f aep) acc
          (names.map fun tg => (tg, ({ repo := f.repo, tag := tg, manifest := none } : Tag))) w).2.2.auth.tokenRequired =
        false ∧
      (manifestSetFold (fixEnv f aep) acc
          (names.map fun tg => (tg, ({ repo := f.repo, tag := tg, manifest := none } : Tag))) w).2.2.nextId =
        w.nextId ∧
      (manifestSetFold (fixEnv f aep) acc
          (names.map fun tg => (tg, ({ repo := f.repo, tag := tg, manifest := none } : Tag))) w).2.2.sessionClosed =
        w.sessionClosed := by
  induction names with
  | nil =>
      intro acc w hreq hpt
      exact ⟨rfl, rfl, by simp [manifestSetFold], hreq, rfl, rfl⟩
  | cons t ts ih =>
      intro acc w hreq hpt
      have htf := tag_fetch f aep w t hreq (hpt t (by simp))
      have hw' : (⟨{ w.auth with desiredScope := some (repoScope f.repo) },
          w.sessionClosed, w.nextId,
          w.trace ++ [Event.httpRequest (mreqF f t)]⟩ : World).auth.tokenRequired
          = false := hreq
      obtain ⟨ih1, ih2, ih3, ih4, ih5, ih6⟩ :=
        ih (setAddManifest acc (mkMan f t))
          (⟨{ w.auth with desiredScope := some (repoScope f.repo) },
            w.sessionClosed, w.nextId,
            w.trace ++ [Event.httpRequest (mreqF f t)]⟩ : World)
          hw' (fun t' ht' => hpt t' (List.mem_cons_of_mem _ ht'))
      rcases hrec : manifestSetFold (fixEnv f aep) (setAddManifest acc (mkMan f t))
          (ts.map fun tg => (tg, ({ repo := f.repo, tag := tg, manifest := none } : Tag)))
          (⟨{ w.auth with desiredScope := some (repoScope f.repo) },
            w.sessionClosed, w.nextId,
            w.trace ++ [Event.httpRequest (mreqF f t)]⟩ : World)
        with ⟨res, ents, wF⟩
      rw [hrec] at ih1 ih2 ih3 ih4 ih5 ih6
      replace ih1 : res = .ok (ts.foldl (fun a t => setAddManifest a (mkMan f t))
        (setAddManifest acc (mkMan f t))) := ih1
      replace ih2 : ents = updEntries f ts := ih2
      replace ih3 : wF.trace = w.trace ++ [Event.httpRequest (mreqF f t)] ++
        ts.map (fun t => Event.httpRequest (mreqF f t)) := ih3
      replace ih4 : wF.auth.tokenRequired = false := ih4
      replace ih5 : wF.nextId = w.nextId := ih5
      replace ih6 : wF.sessionClosed = w.sessionClosed := ih6
      have hstep : manifestSetFold (fixEnv f aep) acc
          (((t :: ts)).map fun tg => (tg, ({ repo := f.repo, tag := tg, manifest := none } : Tag))) w =
          (res, (t, { repo := f.repo, tag := t, manifest := some (mkMan f t) }) :: ents, wF) := by
        show manifestSetFold _ _ ((t, _) :: _) _ = _
        unfold manifestSetFold
        simp only [htf, hrec]
      rw [hstep]
      refine ⟨ih1, ?_, ?_, ih4, ih5, ih6⟩
      · show _ :: ents = updEntries f (t :: ts)
        rw [ih2]
        rfl
      · show wF.trace = _
        rw [ih3]
        simp

/-- The DELETE request `Manifest.delete` issues for a manifest of a
fixture repository (no token auth). -/
def dreqOfMan (f : Fixture) (m : Manifest) : Request :=
  { method := .delete, path := manifestPath f.repo (pyStr m.digest),
    accept := some schema_2, authorization := none }

theorem fixture_delete_manifest (f : Fixture) (aep : Option String → String)
    (w : World) (dgt : String)
    (hreq : w.auth.tokenRequired = false) :
    delete_manifest (fixEnv f aep) f.repo dgt w =
      (.ok .objNil,
       ⟨{ w.auth with desiredScope := some (repoScope f.repo) },
        w.sessionClosed, w.nextId,
        w.trace ++ [Event.httpRequest
          ⟨.delete, manifestPath f.repo dgt, some schema_2, none⟩]⟩) := by
  have hws : (setDesiredScope (repoScope f.repo) w).auth.tokenRequired = false := hreq
  have hnet : (fixEnv f aep).net (reqOf (fixEnv f aep) .delete (manifestPath f.repo dgt)
      none (setDesiredScope (repoScope f.repo) w)) =
      { statusCode := 202, reason := "Accepted", body := none,
        contentType := none, dockerContentDigest := none } := by
    rw [reqOf_noauth _ _ _ _ _ hws]
    simp [fixEnv, fixtureNet]
  have hrr : respResult (fixEnv f aep) .delete (manifestPath f.repo dgt) none
      (setDesiredScope (repoScope f.repo) w) =
      .ok { statusCode := 202, reason := "Accepted", body := none,
            contentType := none, dockerContentDigest := none } := by
    unfold respResult
    rw [hnet]
    rfl
  show httpCallV2 _ _ _ _ _ = _
  unfold httpCallV2
  rw [httpResponseV2_eq]
  simp only [hrr]
  rw [worldAfter_noauth _ _ _ _ _ hws, reqOf_noauth _ _ _ _ _ hws]
  rfl

/-- Deleting a list of manifests of a fixture repository: every DELETE is
accepted, and exactly one DELETE request per list entry is appended to the
trace, in order. -/
theorem deletes_fix (f : Fixture) (aep : Option String → String)
    (S : List Manifest) :
    ∀ (w : World), w.auth.tokenRequired = false →
      (∀ m ∈ S, m.repo = f.repo) →
      (deleteManifests (fixEnv f aep) S w).1 = .ok () ∧
      (deleteManifests (fixEnv f aep) S w).2.trace =
        w.trace ++ S.map (fun m => Event.httpRequest (dreqOfMan f m)) := by
  induction S with
  | nil => intro w hreq hrepo; exact ⟨rfl, by simp [deleteManifests]⟩
  | cons m ms ih =>
      intro w hreq hrepo
      have hm : m.repo = f.repo := hrepo m (by simp)
      have hdel : Manifest.deleteM (fixEnv f aep) m w =
          (.ok .objNil,
           ⟨{ w.auth with desiredScope := some (repoScope f.repo) },
            w.sessionClosed, w.nextId,
            w.trace ++ [Event.httpRequest (dreqOfMan f m)]⟩) := by
        unfold Manifest.deleteM
        rw [hm, fixture_delete_manifest f aep w (pyStr m.digest) hreq]
        rfl
      obtain ⟨ih1, ih2⟩ := ih
        (⟨{ w.auth with desiredScope := some (repoScope f.repo) },
          w.sessionClosed, w.nextId,
          w.trace ++ [Event.httpRequest (dreqOfMan f m)]⟩ : World)
        hreq (fun x hx => hrepo x (List.mem_cons_of_mem _ hx))
      have hstep : deleteManifests (fixEnv f aep) (m :: ms) w =
          deleteManifests (fixEnv f aep) ms
            (⟨{ w.auth with desiredScope := some (repoScope f.repo) },
              w.sessionClosed, w.nextId,
              w.trace ++ [Event.httpRequest (dreqOfMan f m)]⟩ : World) := by
        simp only [deleteManifests, hdel]
      rw [hstep]
      refine ⟨ih1, ?_⟩
      rw [ih2]
      simp

/-- Folding `setAddManifest` over manifests drawn from a pool on which
`__eq__` agrees with digest equality yields a set with pairwise-distinct
digests, whose digests are exactly those of the accumulator and the
folded manifests. -/
theorem setAdd_digests (pool : List Manifest)
    (hcompat : ∀ a ∈ pool, ∀ b ∈ pool,
      (manifestBeqPopulated a b = true ↔ a.digest = b.digest)) :
    ∀ (ms acc : List Manifest),
      (∀ x ∈ ms, x ∈ pool) → (∀ x ∈ acc, x ∈ pool) →
      (acc.map Manifest.digest).Nodup →
      (∀ x ∈ ms.foldl setAddManifest acc, x ∈ pool) ∧
      ((ms.foldl setAddManifest acc).map Manifest.digest).Nodup ∧
      (∀ dgv, dgv ∈ (ms.foldl setAddManifest acc).map Manifest.digest ↔
        dgv ∈ acc.map Manifest.digest ∨ dgv ∈ ms.map Manifest.digest) := by
  intro ms
  induction ms with
  | nil =>
      intro acc hms hacc hnd
      exact ⟨hacc, hnd, by simp⟩
  | cons m rest ih =>
      intro acc hms hacc hnd
      have hmpool : m ∈ pool := hms m (by simp)
      by_cases hany : acc.any (fun x => manifestBeqPopulated x m) = true
      · have hstep : setAddManifest acc m = acc := by
          simp only [setAddManifest, hany, if_true]
        have hmem : m.digest ∈ acc.map Manifest.digest := by
          obtain ⟨x, hx, hbx⟩ := List.any_eq_true.mp hany
          exact List.mem_map.mpr ⟨x, hx, (hcompat x (hacc x hx) m hmpool).mp hbx⟩
        obtain ⟨c1, c2, c3⟩ := ih acc (fun x hx => hms x (List.mem_cons_of_mem _ hx))
          hacc hnd
        rw [show (m :: rest).foldl setAddManifest acc =
          rest.foldl setAddManifest (setAddManifest acc m) from rfl, hstep]
        refine ⟨c1, c2, ?_⟩
        intro dgv
        rw [c3 dgv]
        constructor
        · rintro (h | h)
          · exact Or.inl h
          · exact Or.inr (by simp [h])
        · rintro (h | h)
          · exact Or.inl h
          · rcases List.mem_map.mp h with ⟨y, hy, hyd⟩
            rcases List.mem_cons.mp hy with rfl | hy'
            · exact Or.inl (hyd ▸ hmem)
            · exact Or.inr (List.mem_map.mpr ⟨y, hy', hyd⟩)
      · have hstep : setAddManifest acc m = acc ++ [m] := by
          simp only [setAddManifest, hany, if_false]
          simp at hany
          simp [hany]
        have hnotmem : m.digest ∉ acc.map Manifest.digest := by
          intro hin
          rcases List.mem_map.mp hin with ⟨x, hx, hxd⟩
          have : manifestBeqPopulated x m = true :=
            (hcompat x (hacc x hx) m hmpool).mpr hxd
          exact absurd (List.any_eq_true.mpr ⟨x, hx, this⟩) hany
        have hacc' : ∀ x ∈ acc ++ [m], x ∈ pool := by
          intro x hx
          rcases List.mem_append.mp hx with hx' | hx'
          · exact hacc x hx'
          · simp at hx'
            exact hx' ▸ hmpool
        have hnd' : ((acc ++ [m]).map Manifest.digest).Nodup := by
          rw [List.map_append]
          simp [List.nodup_append, hnd, hnotmem]
        obtain ⟨c1, c2, c3⟩ := ih (acc ++ [m])
          (fun x hx => hms x (List.mem_cons_of_mem _ hx)) hacc' hnd'
        rw [show (m :: rest).foldl setAddManifest acc =
          rest.foldl setAddManifest (setAddManifest acc m) from rfl, hstep]
        refine ⟨c1, c2, ?_⟩
        intro dgv
        rw [c3 dgv]
        simp [or_assoc]

theorem deletePaths_nil : deletePaths [] = [] := rfl

theorem deletePaths_mreqs (f : Fixture) (names : List String) :
    deletePaths (names.map fun t => Event.httpRequest (mreqF f t)) = [] := by
  induction names with
  | nil => rfl
  | cons t ts ih =>
      show deletePaths (Event.httpRequest (mreqF f t) :: _) = []
      unfold deletePaths at ih ⊢
      rw [List.filterMap_cons]
      simp only [mreqF]
      exact ih

theorem deletePaths_dreqs (f : Fixture) (S : List Manifest) :
    deletePaths (S.map fun m => Event.httpRequest (dreqOfMan f m)) =
      S.map fun m => manifestPath f.repo (pyStr m.digest) := by
  induction S with
  | nil => rfl
  | cons m ms ih =>
      show deletePaths (Event.httpRequest (dreqOfMan f m) :: _) = _
      unfold deletePaths at ih ⊢
      exact congrArg (List.cons (manifestPath f.repo (pyStr m.digest))) ih

theorem deletePaths_append (l₁ l₂ : List Event) :
    deletePaths (l₁ ++ l₂) = deletePaths l₁ ++ deletePaths l₂ := by
  unfold deletePaths
  rw [List.filterMap_append]

theorem fixture_manifests (f : Fixture) (aep : Option String → String)
    (w : World)
    (hreq : w.auth.tokenRequired = false)
    (hlp : f.tagOfPath (listTagsPath f.repo) = none)
    (hpt : ∀ t ∈ f.tagNames, f.tagOfPath (manifestPath f.repo t) = some t) :
    (Repository.manifests (fixEnv f aep) { repo := f.repo, tags := none } w).1 =
      .ok (f.tagNames.foldl (fun a t => setAddManifest a (mkMan f t)) []) ∧
    (Repository.manifests (fixEnv f aep) { repo := f.repo, tags := none } w).2.2.trace =
      w.trace ++ [Event.httpRequest (lreqF f)] ++
        f.tagNames.map (fun t => Event.httpRequest (mreqF f t)) ∧
    (Repository.manifests (fixEnv f aep) { repo := f.repo, tags := none } w).2.2.auth.tokenRequired =
      false := by
  have htv := fixture_tagsView f aep w hreq hlp
  rcases hrec : manifestSetFold (fixEnv f aep) []
      (f.tagNames.map fun tg => (tg, ({ repo := f.repo, tag := tg, manifest := none } : Tag)))
      (⟨{ w.auth with desiredScope := some (repoScope f.repo) },
        w.sessionClosed, w.nextId + 1,
        w.trace ++ [Event.httpRequest (lreqF f)]⟩ : World)
    with ⟨res, ents, w₂⟩
  obtain ⟨f1, f2, f3, f4, f5, f6⟩ := fold_fix f aep f.tagNames []
    (⟨{ w.auth with desiredScope := some (repoScope f.repo) },
      w.sessionClosed, w.nextId + 1,
      w.trace ++ [Event.httpRequest (lreqF f)]⟩ : World) hreq hpt
  rw [hrec] at f1 f2 f3 f4 f5 f6
  replace f1 : res = .ok (f.tagNames.foldl (fun a t => setAddManifest a (mkMan f t)) []) := f1
  replace f3 : w₂.trace = w.trace ++ [Event.httpRequest (lreqF f)] ++
    f.tagNames.map (fun t => Event.httpRequest (mreqF f t)) := f3
  replace f4 : w₂.auth.tokenRequired = false := f4
  have hm : Repository.manifests (fixEnv f aep) { repo := f.repo, tags := none } w =
      (res, { repo := f.repo, tags := some ents }, w₂) := by
    unfold Repository.manifests
    simp only [htv, tagEntries, hrec]
  rw [hm]
  exact ⟨f1, f3, f4⟩

/-- **C4.** For every Repository (over a registry fixture) in which
several tags resolve to manifests with the same repository, digest, and
content, `repository.manifests` is a set containing exactly one entry per
distinct digest (its digest list has no duplicates and contains exactly
the digests of the repository's tags), and `Repository.delete()` issues
exactly one manifest-delete call per distinct digest (the DELETE request
paths issued are exactly one per element of that set). -/
theorem C4_manifests_dedup_delete_once (f : Fixture) (aep : Option String → String)
    (w : World)
    (hreq : w.auth.tokenRequired = false)
    (hlp : f.tagOfPath (listTagsPath f.repo) = none)
    (hpt : ∀ t ∈ f.tagNames, f.tagOfPath (manifestPath f.repo t) = some t)
    (hsame : ∀ t₁ ∈ f.tagNames, ∀ t₂ ∈ f.tagNames,
      f.dg t₁ = f.dg t₂ → f.ct t₁ = f.ct t₂) :
    ∃ S : List Manifest,
      (Repository.manifests (fixEnv f aep) { repo := f.repo, tags := none } w).1 =
        .ok S ∧
      (S.map Manifest.digest).Nodup ∧
      (∀ dgv, dgv ∈ S.map Manifest.digest ↔ dgv ∈ f.tagNames.map f.dg) ∧
      (Repository.deleteR (fixEnv f aep) { repo := f.repo, tags := none } w).1 =
        .ok () ∧
      deletePaths
        (((Repository.deleteR (fixEnv f aep) { repo := f.repo, tags := none } w).2.2.trace).drop
          w.trace.length) =
        S.map (fun m => manifestPath f.repo (pyStr m.digest)) := by
  obtain ⟨m1, m2, m3⟩ := fixture_manifests f aep w hreq hlp hpt
  have hcompat : ∀ a ∈ f.tagNames.map (mkMan f), ∀ b ∈ f.tagNames.map (mkMan f),
      (manifestBeqPopulated a b = true ↔ a.digest = b.digest) := by
    intro a ha b hb
    rcases List.mem_map.mp ha with ⟨t₁, ht₁, rfl⟩
    rcases List.mem_map.mp hb with ⟨t₂, ht₂, rfl⟩
    constructor
    · intro hbeq
      simp only [manifestBeqPopulated, Bool.and_eq_true, decide_eq_true_eq] at hbeq
      exact hbeq.1.1
    · intro hdg
      have hct := hsame t₁ ht₁ t₂ ht₂ hdg
      simp [manifestBeqPopulated, mkMan] at hdg hct ⊢
      exact ⟨hdg, hct⟩
  obtain ⟨p1, p2, p3⟩ := setAdd_digests (f.tagNames.map (mkMan f)) hcompat
    (f.tagNames.map (mkMan f)) [] (fun x hx => hx)
    (by intro x hx; simp at hx) (by simp)
  have hfold : (f.tagNames.map (mkMan f)).foldl setAddManifest [] =
      f.tagNames.foldl (fun a t => setAddManifest a (mkMan f t)) [] :=
    List.foldl_map (mkMan f) setAddManifest f.tagNames []
  rw [hfold] at p1 p2 p3
  refine ⟨f.tagNames.foldl (fun a t => setAddManifest a (mkMan f t)) [], m1, p2,
    ?_, ?_⟩
  · intro dgv
    rw [p3 dgv]
    have hdig : (f.tagNames.map (mkMan f)).map Manifest.digest = f.tagNames.map f.dg := by
      rw [List.map_map]
      rfl
    rw [hdig]
    simp
  · rcases hman : Repository.manifests (fixEnv f aep)
        { repo := f.repo, tags := none } w with ⟨mres, r', w₂⟩
    rw [hman] at m1 m2 m3
    replace m1 : mres = .ok (f.tagNames.foldl (fun a t => setAddManifest a (mkMan f t)) []) := m1
    replace m2 : w₂.trace = w.trace ++ [Event.httpRequest (lreqF f)] ++
      f.tagNames.map (fun t => Event.httpRequest (mreqF f t)) := m2
    replace m3 : w₂.auth.tokenRequired = false := m3
    rw [m1] at hman
    have hrepo : ∀ m ∈ f.tagNames.foldl (fun a t => setAddManifest a (mkMan f t)) [],
        m.repo = f.repo := by
      intro m hm
      rcases List.mem_map.mp (p1 m hm) with ⟨t, ht, rfl⟩
      rfl
    obtain ⟨d1, d2⟩ := deletes_fix f aep
      (f.tagNames.foldl (fun a t => setAddManifest a (mkMan f t)) []) w₂ m3 hrepo
    rcases hd : deleteManifests (fixEnv f aep)
        (f.tagNames.foldl (fun a t => setAddManifest a (mkMan f t)) []) w₂
      with ⟨res2, w₃⟩
    rw [hd] at d1 d2
    replace d1 : res2 = .ok () := d1
    replace d2 : w₃.trace = w₂.trace ++
      (f.tagNames.foldl (fun a t => setAddManifest a (mkMan f t)) []).map
        (fun m => Event.httpRequest (dreqOfMan f m)) := d2
    have hdel : Repository.deleteR (fixEnv f aep) { repo := f.repo, tags := none } w =
        (res2, r', w₃) := by
      unfold Repository.deleteR
      simp only [hman, hd]
    rw [hdel]
    refine ⟨d1, ?_⟩
    show deletePaths (w₃.trace.drop w.trace.length) = _
    rw [d2, m2]
    rw [List.append_assoc, List.append_assoc, List.drop_left]
    rw [deletePaths_append, deletePaths_append, deletePaths_mreqs,
      show deletePaths [Event.httpRequest (lreqF f)] = [] from rfl,
      deletePaths_dreqs]
    simp

/-- A concrete fixture: repository `"app"`, tags `"v1"` and `"v2"` both
pointing to digest `"sha256:abc"` with identical content. -/
def f4 : Fixture :=
  { repo := "app"
    tagNames := ["v1", "v2"]
    dg := fun _ => some "sha256:abc"
    ct := fun _ => .objNil
    tagOfPath := fun p =>
      if p = manifestPath "app" "v1" then some "v1"
      else if p = manifestPath "app" "v2" then some "v2"
      else none }

/-- Witness for C4 at the two-tags-one-digest fixture: the manifest set
has exactly one digest and exactly one DELETE is issued for it. -/
theorem C4_witness :
    ∃ S : List Manifest,
      (Repository.manifests (fixEnv f4 (fun _ => "tok"))
        { repo := f4.repo, tags := none } wNoTok).1 = .ok S ∧
      (S.map Manifest.digest).Nodup ∧
      (∀ dgv, dgv ∈ S.map Manifest.digest ↔ dgv ∈ f4.tagNames.map f4.dg) ∧
      (Repository.deleteR (fixEnv f4 (fun _ => "tok"))
        { repo := f4.repo, tags := none } wNoTok).1 = .ok () ∧
      deletePaths
        (((Repository.deleteR (fixEnv f4 (fun _ => "tok"))
          { repo := f4.repo, tags := none } wNoTok).2.2.trace).drop
          wNoTok.trace.length) =
        S.map (fun m => manifestPath f4.repo (pyStr m.digest)) :=
  C4_manifests_dedup_delete_once f4 (fun _ => "tok") wNoTok rfl (by decide)
    (by decide) (fun t₁ ht₁ t₂ ht₂ hd => rfl)

/-! ## Claim C1 -/

/-- **C1.** For every authenticated client operation (catalog, listTags,
getManifest, deleteManifest, getBlob, deleteBlob) when token auth is
required: if no token is held, or the held token's scope differs from the
operation's desired scope, exactly one token renewal (`get_new_token`) is
performed before the HTTP request is issued; if a token is held and its
scope equals the desired scope, zero renewals are performed.  (The event
trace the operation appends is exactly one `getNewToken` followed by the
request in the first case, and just the request in the second.) -/
theorem C1_scope_triggered_renewal (env : Env) (op : ClientOp) (w : World)
    (h : w.auth.tokenRequired = true) :
    ∃ req : Request,
      (runOp env op w).2.trace =
        w.trace ++
          (if tokenFalsy w.auth.token || (some (opScope op) != w.auth.scope) then
            [Event.getNewToken (some (opScope op)), Event.httpRequest req]
           else
            [Event.httpRequest req]) := by
  refine ⟨reqOf env (opMethod op) (opPath op) (opSchema op)
    (setDesiredScope (opScope op) w), ?_⟩
  rw [runOp_snd, httpResponseV2_snd]
  show (setDesiredScope (opScope op) w).trace ++
      renewEventsOf (setDesiredScope (opScope op) w) ++ _ = _
  unfold renewEventsOf renewNeeded setDesiredScope
  by_cases hc : (tokenFalsy w.auth.token || (some (opScope op) != w.auth.scope)) = true <;>
    simp [h, hc]

/-- Concrete instance for C1: a fresh world requiring token auth with no
token held. -/
def envC1 : Env :=
  { net := fun _ =>
      { statusCode := 200, reason := "OK", body := none,
        contentType := none, dockerContentDigest := none }
    authEndpoint := fun _ => "tok" }

/-- A world in which the registry requires bearer tokens and no token is
held yet. -/
def wC1 : World :=
  { auth := { tokenRequired := true, token := none, scope := none, desiredScope := none }
    sessionClosed := false
    nextId := 0
    trace := [] }

/-- Witness for C1 at the catalog operation on a fresh tokenful world. -/
theorem C1_witness :
    wC1.auth.tokenRequired = true ∧
      ∃ req : Request,
        (runOp envC1 .catalogOp wC1).2.trace =
          wC1.trace ++
            (if tokenFalsy wC1.auth.token ||
                (some (opScope .catalogOp) != wC1.auth.scope) then
              [Event.getNewToken (some (opScope .catalogOp)), Event.httpRequest req]
             else
              [Event.httpRequest req]) :=
  ⟨rfl, C1_scope_triggered_renewal envC1 .catalogOp wC1 rfl⟩
